import Mathlib

/-!
Shallow embedding of the task/campaign lifecycle engine of the
decentralized-autonomous-computing repository (the `dac` Anchor program under
src/programs/dac), together with proofs about the frozen specification claims.

Modelling conventions:
* `u64` values are modelled as `Nat` together with explicit `checkedAdd` /
  `checkedSub` operations mirroring Rust's `checked_add` / `checked_sub`
  (overflow at `2^64` is an error, exactly as in the source).
* Solana `Pubkey`s are opaque 32-byte identities; they are modelled as `Nat`
  (their little-endian value), with `pubkeyBytes` giving the 32-byte encoding
  used when a key is compared against raw instruction bytes.
  `Pubkey::default()` is `0`.
* Rust `String`s (IPFS CIDs) are modelled as their UTF-8 byte lists
  (`List Nat`); `String::len` and `as_bytes` are the identity on this model.
* SHA-256 (`sha2::Sha256`) is modelled by `sha256`, a concrete executable
  function from byte lists to 32-byte digests.  The development relies only on
  SHA-256 being a deterministic function of the concatenated input bytes with
  a 32-byte output; no collision-resistance property is used anywhere.
* Account mutation through `&mut self` is modelled by functions from an
  accounts record to `Except Err` of the updated record.  A Solana
  transaction either commits all of its writes or none, so an `Except.error`
  result models the aborted transaction, after which all accounts keep their
  previous state.
* Rust panics reachable in the embedded code (out-of-bounds slicing in
  `verify_tee_signature`, `% 0` in `claim_task`) also abort the transaction;
  they are modelled by the dedicated error value `Err.RuntimePanic`.
* The share-price arithmetic in `contribute_to_*` / `withdraw_from_*` is
  computed in `f64` by the source.  The value of each `f64` expression cast
  back to `u64` is modelled by an explicit oracle argument, constrained only
  by the guards the source itself imposes on it.  Theorems below either hold
  for every oracle value, or instantiate the oracle at the value the real
  `f64` computation produces for the concrete inputs used (those inputs are
  small enough that the computation is exact).
-/

set_option maxRecDepth 100000

namespace Dac

/-- Largest `u64` value. -/
def u64Max : Nat := 2 ^ 64 - 1

/-- Model of Rust `u64::checked_add`. -/
def checkedAdd (a b : Nat) : Option Nat :=
  if a + b ≤ u64Max then some (a + b) else none

/-- Model of Rust `u64::checked_sub`. -/
def checkedSub (a b : Nat) : Option Nat :=
  if b ≤ a then some (a - b) else none

/-- Little-endian byte encoding of a `u64` (`u64::to_le_bytes`). -/
def u64le (n : Nat) : List Nat :=
  (List.range 8).map (fun i => n / 256 ^ i % 256)

/-- The 32-byte encoding of a `Pubkey` (`Pubkey::as_ref`), little-endian. -/
def pubkeyBytes (pk : Nat) : List Nat :=
  (List.range 32).map (fun i => pk / 256 ^ i % 256)

/-- Model of SHA-256 (`sha2::Sha256`) over the concatenation of all bytes fed
to the hasher: a deterministic, executable function returning 32 bytes.  Only
determinism and the 32-byte output shape are relied upon below. -/
def sha256 (input : List Nat) : List Nat :=
  (List.range 32).map
    (fun i => input.foldl (fun a b => (a * 31 + b + 1) % 256) (i + 101))

/-- Mirror of the `ErrorCode` enum in src/programs/dac/src/errors.rs
(constructors restricted to the codes reachable from the embedded
instructions), plus `RuntimePanic` for Rust panics, which abort the
transaction just like returned errors do. -/
inductive Err
  | Overflow
  | InvalidPDAAccount
  | InvalidNodeType
  | InvalidNodeStatus
  | InvalidTeeSignature
  | InvalidInstructionSysvar
  | BadEd25519Program
  | BadEd25519Accounts
  | InvalidValidatorTeeSigningPubkey
  | InvalidComputeNodePubkey
  | Underflow
  | InsufficientBalance
  | InvalidTaskStatus
  | InvalidSessionStatus
  | InvalidValidatorMessage
  | InvalidCID
  | DuplicateValidation
  | ValidatorNotAssigned
  | NotEnoughValidators
  | InvalidSession
  | DeserializeFailure
  | RuntimePanic
  deriving DecidableEq, Repr

instance {ε α : Type} [DecidableEq ε] [DecidableEq α] :
    DecidableEq (Except ε α) := by
  intro x y
  cases x <;> cases y
  case ok.ok a b =>
    exact if h : a = b then .isTrue (by rw [h]) else .isFalse (by simp [h])
  case error.error a b =>
    exact if h : a = b then .isTrue (by rw [h]) else .isFalse (by simp [h])
  all_goals exact .isFalse (by simp)

/-- Source: `require!(cond, err)`. -/
def req (cond : Prop) [Decidable cond] (e : Err) : Except Err Unit :=
  if cond then .ok () else .error e

/-- Source: `opt.ok_or(err)?`. -/
def okOr (o : Option α) (e : Err) : Except Err α :=
  match o with
  | some a => .ok a
  | none => .error e

theorem req_ok {c : Prop} [Decidable c] {e : Err} {u : Unit} :
    req c e = .ok u ↔ c := by
  unfold req
  split <;> simp_all

theorem okOr_ok {o : Option α} {e : Err} {a : α} :
    okOr o e = .ok a ↔ o = some a := by
  cases o <;> simp [okOr]

theorem exceptBind_ok {α β} {x : Except Err α} {f : α → Except Err β} {b : β} :
    (x >>= f) = .ok b ↔ ∃ a, x = .ok a ∧ f a = .ok b := by
  cases x <;> simp [Bind.bind, Except.bind]

theorem checkedAdd_some {a b c : Nat} :
    checkedAdd a b = some c ↔ a + b ≤ u64Max ∧ c = a + b := by
  unfold checkedAdd
  split
  · simp_all
    omega
  · simp_all

theorem checkedSub_some {a b c : Nat} :
    checkedSub a b = some c ↔ b ≤ a ∧ c = a - b := by
  unfold checkedSub
  split
  · simp_all
    omega
  · simp_all

/-! ## Data model (src/programs/dac/src/state) -/

/-- Source: `SemanticVersion` (utils.rs); `u16` fields. -/
structure SemanticVersion where
  major : Nat
  minor : Nat
  patch : Nat
  deriving DecidableEq, Repr

/-- Source: `CodeMeasurement` (state/network_config.rs). -/
structure CodeMeasurement where
  measurement : List Nat
  version : SemanticVersion
  deriving DecidableEq, Repr

/-- Source: `NetworkConfig` (state/network_config.rs).  Account-plumbing `bump` fields
are omitted throughout: they parametrise address derivation only and carry no
program logic.  `public_node_count` does not appear in state/network_config.rs;
see `NetworkConfig.increment_public_node_count` below. -/
structure NetworkConfig where
  authority : Nat
  cid_config : List Nat
  genesis_hash : List Nat
  task_count : Nat
  required_validations : Nat
  allowed_models : List Nat
  approved_confidential_nodes : List Nat
  approved_public_nodes : List Nat
  agent_count : Nat
  session_count : Nat
  approved_code_measurements : List CodeMeasurement
  public_node_count : Nat
  deriving DecidableEq, Repr

/-- Source: `SessionStatus` (state/session.rs). -/
inductive SessionStatus
  | Pending
  | Active
  | Completed
  deriving DecidableEq, Repr

/-- Source: `Session` (state/session.rs): the campaign record used by the task
lifecycle instructions. -/
structure Session where
  session_slot_id : Nat
  owner : Nat
  task : Nat
  status : SessionStatus
  is_confidential : Bool
  max_iterations : Nat
  current_iteration : Nat
  task_index_start : Nat
  task_index_end : Nat
  total_shares : Nat
  locked_for_tasks : Nat
  specification_cid : List Nat
  state_cid : Option (List Nat)
  deriving DecidableEq, Repr

/-- Source: `GoalStatus` (state/goal.rs). -/
inductive GoalStatus
  | Ready
  | Active
  deriving DecidableEq, Repr

/-- Source: `Goal` (state/goal.rs): the goal-generation campaign record.  It is the
only campaign-level record carrying a running audit hash (`chain_proof`,
state/goal.rs line 25). -/
structure Goal where
  goal_slot_id : Nat
  owner : Nat
  agent : Nat
  task : Nat
  status : GoalStatus
  specification_cid : List Nat
  max_iterations : Nat
  current_iteration : Nat
  task_index_at_goal_start : Nat
  task_index_at_goal_end : Nat
  total_shares : Nat
  locked_for_tasks : Nat
  chain_proof : List Nat
  is_confidential : Bool
  deriving DecidableEq, Repr

/-- Source: `Contribution` (state/contribution.rs). -/
structure Contribution where
  session : Nat
  contributor : Nat
  shares : Nat
  refund_amount : Nat
  deriving DecidableEq, Repr

/-- Source: `TaskStatus` (state/task.rs). -/
inductive TaskStatus
  | Ready
  | Pending
  | Processing
  | AwaitingValidation
  deriving DecidableEq, Repr

/-- Source: `TaskType` (state/task.rs). -/
inductive TaskType
  | Completion (model_id : Nat)
  | Custom (module_id : Nat)
  | HumanInLoop
  deriving DecidableEq, Repr

/-- Source: `ValidationStatus` (state/task.rs). -/
inductive ValidationStatus
  | Pending
  | Approved
  | Rejected
  deriving DecidableEq, Repr

/-- Source: `Validator` slate entry (state/task.rs). -/
structure Validator where
  pubkey : Nat
  status : ValidationStatus
  deriving DecidableEq, Repr

/-- Source: `Task` (state/task.rs).  `next_input_cid` does not appear in state/task.rs
but is written by submit_task_result.rs; it is included so that instruction's
behaviour can be embedded as written. -/
structure Task where
  task_slot_id : Nat
  session_slot_id : Option Nat
  status : TaskStatus
  compute_node : Option Nat
  task_type : TaskType
  chain_proof : List Nat
  task_index : Nat
  max_task_cost : Nat
  max_call_count : Nat
  call_count : Nat
  input_cid : Option (List Nat)
  output_cid : Option (List Nat)
  pending_input_cid : Option (List Nat)
  pending_output_cid : Option (List Nat)
  next_input_cid : Option (List Nat)
  validations : List Validator
  deriving DecidableEq, Repr

/-- Source: `NodeType`.  state/node_info.rs declares `Validator | Compute`, while the
validation instructions (submit_task_validation.rs, validate_public_node.rs)
compare against `Public` and `Confidential` — the repository mixes two
generations of the enum.  The embedding takes the union so every embedded
comparison is expressible. -/
inductive NodeType
  | Validator
  | Compute
  | Public
  | Confidential
  deriving DecidableEq, Repr

/-- Source: `NodeStatus` (state/node_info.rs). -/
inductive NodeStatus
  | PendingClaim
  | AwaitingValidation
  | Active
  | Disabled
  | Rejected
  deriving DecidableEq, Repr

/-- Source: `RewardEntry` (state/node_info.rs). -/
structure RewardEntry where
  amount : Nat
  slot : Nat
  deriving DecidableEq, Repr

/-- Source: `NodeInfo` (state/node_info.rs).  The voter lists
`approved_validators` / `rejected_validators` do not appear in
state/node_info.rs but are read and written by validate_public_node.rs
(the richer committee model); they are included so that instruction can be
embedded as written. -/
structure NodeInfo where
  owner : Nat
  node_pubkey : Nat
  node_type : NodeType
  status : NodeStatus
  node_info_cid : Option (List Nat)
  code_measurement : Option (List Nat)
  tee_signing_pubkey : Option Nat
  node_treasury : Nat
  recent_rewards : List RewardEntry
  total_earned : Nat
  max_entries_before_transfer : Nat
  last_transfer_slot : Nat
  total_tasks_completed : Nat
  approved_validators : List Nat
  rejected_validators : List Nat
  deriving DecidableEq, Repr

/-! ## NetworkConfig methods (state/network_config.rs) -/

/-- Source: `NetworkConfig::add_code_measurement`: `insert(0, m)` then, past capacity
10, `pop()` the last (oldest) entry. -/
def NetworkConfig.add_code_measurement (c : NetworkConfig) (m : List Nat)
    (v : SemanticVersion) : NetworkConfig :=
  let l := CodeMeasurement.mk m v :: c.approved_code_measurements
  { c with approved_code_measurements := if l.length > 10 then l.dropLast else l }

/-- Source: `NetworkConfig::is_measurement_approved`. -/
def NetworkConfig.is_measurement_approved (c : NetworkConfig)
    (m : List Nat) : Bool :=
  c.approved_code_measurements.any (fun cm => cm.measurement = m)

/-- Source: `NetworkConfig::add_confidential_node`: `push(pk)` then, past capacity 10,
`pop()` the last entry — which is the entry just pushed. -/
def NetworkConfig.add_confidential_node (c : NetworkConfig) (pk : Nat) :
    NetworkConfig :=
  let l := c.approved_confidential_nodes ++ [pk]
  { c with approved_confidential_nodes := if l.length > 10 then l.dropLast else l }

/-- Source: `NetworkConfig::add_public_node`: `push(pk)` then, past capacity 10,
`pop()` the last entry — which is the entry just pushed. -/
def NetworkConfig.add_public_node (c : NetworkConfig) (pk : Nat) :
    NetworkConfig :=
  let l := c.approved_public_nodes ++ [pk]
  { c with approved_public_nodes := if l.length > 10 then l.dropLast else l }

/-- Modelled from the spec: `increment_public_node_count` is called by
validate_public_node.rs but is not defined in state/network_config.rs (the
repository mixes iteration generations).  Following the sibling counters of
network_config.rs ("Invariant: counters never decrease"), it is modelled as a
checked increment of a node counter. -/
def NetworkConfig.increment_public_node_count (c : NetworkConfig) :
    Except Err NetworkConfig :=
  match checkedAdd c.public_node_count 1 with
  | some n => .ok { c with public_node_count := n }
  | none => .error .Overflow

/-! ## Threshold helper (utils.rs) -/

/-- Source: `check_validation_threshold` (utils.rs lines 122-127). -/
def check_validation_threshold (current_validations required_validations : Nat) :
    Except Err Bool :=
  .ok (current_validations ≥ required_validations)

/-! ## Instruction introspection and TEE signature verification (utils.rs) -/

/-- One co-submitted instruction as seen through the instructions sysvar. -/
structure Instr where
  program_id : Nat
  accounts : List Nat
  data : List Nat
  deriving DecidableEq, Repr

/-- The instructions-sysvar view of the transaction:
`load_current_index_checked` returns `current_index`;
`load_instruction_at_checked i` returns the `i`-th instruction. -/
structure Sysvar where
  current_index : Nat
  instructions : List Instr
  deriving DecidableEq, Repr

/-- Opaque model of `solana_sdk_ids::ed25519_program::ID`. -/
def ed25519ProgramId : Nat := 0xed25519

/-- Read an unaligned little-endian `u16` out of instruction data.  Only used
after the `data.len() >= 16` bound has been established, so the default is
never taken on the offsets actually read. -/
def readU16LE (d : List Nat) (off : Nat) : Nat :=
  d.getD off 0 + 256 * d.getD (off + 1) 0

/-- Source: `Ed25519SignatureOffsets` as read by
`bytemuck::try_pod_read_unaligned(&ed_data[2..16])`: seven packed
little-endian `u16` fields.  The pod read cannot fail on a 14-byte slice. -/
structure Ed25519SignatureOffsets where
  signature_offset : Nat
  signature_instruction_index : Nat
  public_key_offset : Nat
  public_key_instruction_index : Nat
  message_data_offset : Nat
  message_data_size : Nat
  message_instruction_index : Nat
  deriving DecidableEq, Repr

def readOffsets (d : List Nat) : Ed25519SignatureOffsets where
  signature_offset := readU16LE d 2
  signature_instruction_index := readU16LE d 4
  public_key_offset := readU16LE d 6
  public_key_instruction_index := readU16LE d 8
  message_data_offset := readU16LE d 10
  message_data_size := readU16LE d 12
  message_instruction_index := readU16LE d 14

/-- Rust range slicing `d[off..off+len]`, which panics (aborting the
transaction) when the range overruns the data. -/
def sliceOrPanic (d : List Nat) (off len : Nat) : Except Err (List Nat) :=
  if off + len ≤ d.length then .ok ((d.drop off).take len) else .error .RuntimePanic

/-- Source: `verify_tee_signature` (utils.rs lines 80-120) up to and including the
signer-key comparison; returns the raw signed message bytes.  The generic
Borsh decode of the message happens after this (see `verify_tee_signature`),
exactly as in the source, where `T::deserialize` runs only once the key
matched. -/
def verify_tee_signature_bytes (sys : Sysvar) (expected_tee_pubkey : Nat) :
    Except Err (List Nat) := do
  let current_ix_index := sys.current_index
  req (current_ix_index > 0) .InvalidInstructionSysvar
  let ed_ix ← okOr (sys.instructions.get? (current_ix_index - 1))
    .InvalidInstructionSysvar
  req (ed_ix.program_id = ed25519ProgramId) .BadEd25519Program
  req (ed_ix.accounts = []) .BadEd25519Accounts
  let ed_data := ed_ix.data
  req (ed_data.length ≥ 16) .InvalidInstructionSysvar
  let offsets := readOffsets ed_data
  let validator_pubkey_slice ← sliceOrPanic ed_data offsets.public_key_offset 32
  let msg_bytes ← sliceOrPanic ed_data offsets.message_data_offset
    offsets.message_data_size
  req (validator_pubkey_slice = pubkeyBytes expected_tee_pubkey)
    .InvalidValidatorTeeSigningPubkey
  .ok msg_bytes

/-! ## Borsh decoding of `SubmitTaskValidationMessage`
(instructions/submit_task_validation.rs) -/

/-- Source: `SubmitTaskValidationMessage` (submit_task_validation.rs lines 14-22). -/
structure SubmitTaskValidationMessage where
  goal_id : Nat
  task_slot_id : Nat
  payment_amount : Nat
  validation_proof : List Nat
  approved : Bool
  session_completed : Bool
  deriving DecidableEq, Repr

/-- Borsh: read a little-endian `u64`. -/
def borshReadU64 (d : List Nat) : Option (Nat × List Nat) :=
  if d.length ≥ 8 then
    some (((d.take 8).enum.map (fun p => p.2 * 256 ^ p.1)).sum, d.drop 8)
  else none

/-- Borsh: read a `[u8; 32]`. -/
def borshReadBytes32 (d : List Nat) : Option (List Nat × List Nat) :=
  if d.length ≥ 32 then some (d.take 32, d.drop 32) else none

/-- Borsh: read a `bool` (strictly `0` or `1`). -/
def borshReadBool (d : List Nat) : Option (Bool × List Nat) :=
  match d with
  | 0 :: rest => some (false, rest)
  | 1 :: rest => some (true, rest)
  | _ => none

/-- Source: `BorshDeserialize::deserialize` for `SubmitTaskValidationMessage`.
Trailing bytes are permitted (`deserialize`, not `try_from_slice`). -/
def borshDeserializeMessage (d : List Nat) :
    Option SubmitTaskValidationMessage := do
  let (goal_id, d) ← borshReadU64 d
  let (task_slot_id, d) ← borshReadU64 d
  let (payment_amount, d) ← borshReadU64 d
  let (validation_proof, d) ← borshReadBytes32 d
  let (approved, d) ← borshReadBool d
  let (session_completed, _) ← borshReadBool d
  some ⟨goal_id, task_slot_id, payment_amount, validation_proof, approved,
    session_completed⟩

/-- Borsh serialization of `SubmitTaskValidationMessage` (used to build
concrete co-submitted instructions). -/
def borshSerializeMessage (m : SubmitTaskValidationMessage) : List Nat :=
  u64le m.goal_id ++ u64le m.task_slot_id ++ u64le m.payment_amount ++
    m.validation_proof ++ [if m.approved then 1 else 0] ++
    [if m.session_completed then 1 else 0]

/-- Source: `verify_tee_signature::<SubmitTaskValidationMessage>` (utils.rs):
key-checked message bytes, then Borsh decode. -/
def verify_tee_signature (sys : Sysvar) (expected_tee_pubkey : Nat) :
    Except Err SubmitTaskValidationMessage := do
  let msg_bytes ← verify_tee_signature_bytes sys expected_tee_pubkey
  okOr (borshDeserializeMessage msg_bytes) .DeserializeFailure

/-! ## submit_task_validation (instructions/submit_task_validation.rs) -/

/-- The accounts of the `SubmitTaskValidation` context.  `vault` and
`node_treasury` are the lamport balances of the corresponding system
accounts. -/
structure SubmitTaskValidationAccs where
  node_validating : Nat
  session : Session
  vault : Nat
  task : Task
  node_info : NodeInfo
  node_treasury : Nat
  validator_node_info : NodeInfo
  network_config : NetworkConfig
  instruction_sysvar : Sysvar
  deriving DecidableEq, Repr

/-- Source: `validate_common_requirements` (read-only checks). -/
def validate_common_requirements (a : SubmitTaskValidationAccs) :
    Except Err Unit := do
  req (a.validator_node_info.status = .Active) .InvalidNodeStatus
  req (a.node_info.status = .Active) .InvalidNodeStatus
  req (a.session.status = .Active) .InvalidSessionStatus
  req (a.task.status = .AwaitingValidation) .InvalidTaskStatus
  req (a.task.compute_node = some a.node_info.node_pubkey)
    .InvalidComputeNodePubkey

/-- Source: `iter_mut().find(|v| v.pubkey == pk)` followed by a status write: flips
the first slate entry with the given pubkey, if any. -/
def flipFirst (pk : Nat) (st : ValidationStatus) :
    List Validator → List Validator
  | [] => []
  | v :: rest =>
      if v.pubkey = pk then { v with status := st } :: rest
      else v :: flipFirst pk st rest

/-- Source: `validations.iter().filter(|v| v.status == Approved).count()`. -/
def approvedCount (l : List Validator) : Nat :=
  (l.filter (fun v => v.status == ValidationStatus.Approved)).length

/-- Source: `validations.iter().filter(|v| v.status == Rejected).count()`. -/
def rejectedCount (l : List Validator) : Nat :=
  (l.filter (fun v => v.status == ValidationStatus.Rejected)).length

/-- Source: `process_approved_validation` (submit_task_validation.rs lines 240-366). -/
def process_approved_validation (a : SubmitTaskValidationAccs)
    (message : SubmitTaskValidationMessage) : Except Err SubmitTaskValidationAccs := do
  let task1 := { a.task with
    validations := flipFirst a.node_validating .Approved a.task.validations }
  let approved_count := approvedCount task1.validations
  let threshold_reached ← check_validation_threshold approved_count
    a.network_config.required_validations
  if threshold_reached then do
    -- Update task chain_proof from the previously validated references
    let old_input_cid := task1.input_cid.getD []
    let old_output_cid := task1.output_cid.getD []
    let task2 := { task1 with
      chain_proof := sha256 (task1.chain_proof ++ old_input_cid ++
        old_output_cid ++ u64le task1.task_index),
      input_cid := task1.pending_input_cid,
      output_cid := task1.pending_output_cid,
      pending_input_cid := none,
      pending_output_cid := none }
    -- Release locked funds
    let locked' ← okOr (checkedSub a.session.locked_for_tasks task2.max_task_cost)
      .Underflow
    -- Pay compute node
    req (a.vault ≥ message.payment_amount) .InsufficientBalance
    let vault' := a.vault - message.payment_amount
    let treasury' := a.node_treasury + message.payment_amount
    let total_earned' ← okOr (checkedAdd a.node_info.total_earned
      message.payment_amount) .Overflow
    let tasks_completed' ← okOr (checkedAdd a.node_info.total_tasks_completed 1)
      .Overflow
    let iteration' ← okOr (checkedAdd a.session.current_iteration 1) .Overflow
    let node_info' := { a.node_info with total_earned := total_earned', total_tasks_completed := tasks_completed' }
    if message.session_completed ∨
        (a.session.max_iterations ≠ 0 ∧ iteration' ≥ a.session.max_iterations) then
      let session' := { a.session with locked_for_tasks := locked', current_iteration := iteration', status := SessionStatus.Completed }
      .ok { a with session := session', task := { task2 with status := .Ready, validations := [] }, vault := vault', node_treasury := treasury', node_info := node_info' }
    else
      let session' := { a.session with locked_for_tasks := locked', current_iteration := iteration' }
      .ok { a with session := session', task := { task2 with status := .Pending, validations := [] }, vault := vault', node_treasury := treasury', node_info := node_info' }
  else
    .ok { a with task := task1 }

/-- Source: `process_rejected_validation` (submit_task_validation.rs lines 368-408). -/
def process_rejected_validation (a : SubmitTaskValidationAccs) :
    Except Err SubmitTaskValidationAccs := do
  let task1 := { a.task with
    validations := flipFirst a.node_validating .Rejected a.task.validations }
  let rejected_count := rejectedCount task1.validations
  let threshold_reached ← check_validation_threshold rejected_count
    a.network_config.required_validations
  if threshold_reached then do
    let locked' ← okOr (checkedSub a.session.locked_for_tasks task1.max_task_cost)
      .Underflow
    let task2 := { task1 with pending_input_cid := none, pending_output_cid := none, status := TaskStatus.Ready, validations := ([] : List Validator) }
    .ok { a with session := { a.session with locked_for_tasks := locked' }, task := task2 }
  else
    .ok { a with task := task1 }

/-- Source: `verify_validation_proof`: the signed proof must equal
SHA-256(pending_input_cid ‖ pending_output_cid). -/
def verify_validation_proof (a : SubmitTaskValidationAccs)
    (message : SubmitTaskValidationMessage) : Except Err Unit := do
  let pending_input_cid ← okOr a.task.pending_input_cid .InvalidPDAAccount
  let pending_output_cid ← okOr a.task.pending_output_cid .InvalidPDAAccount
  let expected_proof := sha256 (pending_input_cid ++ pending_output_cid)
  req (message.validation_proof = expected_proof) .InvalidTeeSignature

/-- Source: `verify_confidential_validation` (submit_task_validation.rs lines
170-212). -/
def verify_confidential_validation (a : SubmitTaskValidationAccs) :
    Except Err SubmitTaskValidationMessage := do
  req (a.validator_node_info.node_type = .Confidential) .InvalidNodeType
  let validator_tee_signing_pubkey ← okOr a.validator_node_info.tee_signing_pubkey
    .InvalidTeeSignature
  let message ← verify_tee_signature a.instruction_sysvar
    validator_tee_signing_pubkey
  req (message.goal_id = a.session.session_slot_id) .InvalidValidatorMessage
  req (message.task_slot_id = a.task.task_slot_id) .InvalidValidatorMessage
  req (message.payment_amount > 0) .Overflow
  verify_validation_proof a message
  let validator_entry ← okOr
    (a.task.validations.find? (fun v => v.pubkey == a.node_validating))
    .ValidatorNotAssigned
  req (validator_entry.status = .Pending) .DuplicateValidation
  .ok message

/-- Source: `submit_confidential_task_validation`. -/
def submit_confidential_task_validation (a : SubmitTaskValidationAccs) :
    Except Err SubmitTaskValidationAccs := do
  validate_common_requirements a
  req (a.session.is_confidential = true) .InvalidSessionStatus
  let message ← verify_confidential_validation a
  if message.approved then process_approved_validation a message
  else process_rejected_validation a

/-- Source: `submit_public_task_validation`. -/
def submit_public_task_validation (a : SubmitTaskValidationAccs)
    (payment_amount : Nat) (approved goal_completed : Bool) :
    Except Err SubmitTaskValidationAccs := do
  validate_common_requirements a
  req (a.session.is_confidential = false) .InvalidSessionStatus
  req (a.validator_node_info.node_type = .Public ∨
    a.validator_node_info.node_type = .Confidential) .InvalidNodeType
  let validator_entry ← okOr
    (a.task.validations.find? (fun v => v.pubkey == a.node_validating))
    .ValidatorNotAssigned
  req (validator_entry.status = .Pending) .DuplicateValidation
  if approved then
    process_approved_validation a
      { goal_id := a.session.session_slot_id,
        task_slot_id := a.task.task_slot_id,
        payment_amount := payment_amount,
        validation_proof := List.replicate 32 0,
        approved := approved,
        session_completed := goal_completed }
  else
    process_rejected_validation a

/-! ## claim_task (instructions/claim_task.rs) -/

/-- Source: `vault.lamports() − locked_for_tasks − rent_exempt_minimum`, both
subtractions checked (`Underflow`). -/
def available_balance_checked (vault locked rent_exempt_minimum : Nat) :
    Except Err Nat := do
  let x ← okOr (checkedSub vault locked) .Underflow
  okOr (checkedSub x rent_exempt_minimum) .Underflow

structure ClaimTaskAccs where
  compute_node : Nat
  task : Task
  session : Session
  vault : Nat
  network_config : NetworkConfig
  deriving DecidableEq, Repr

/-- The validator-candidate pool of `claim_task`: the approved pool matching
the session's confidentiality, with the claimant filtered out. -/
def claimCandidates (a : ClaimTaskAccs) : List Nat :=
  (if a.session.is_confidential then a.network_config.approved_confidential_nodes
   else a.network_config.approved_public_nodes).filter
    (fun p => p != a.compute_node)

/-- The validator slate drawn by `claim_task`: `required_validations`
candidates taken cyclically starting at `clock_slot % candidates.len()`. -/
def claimSlate (a : ClaimTaskAccs) (clock_slot : Nat) : List Validator :=
  (List.range a.network_config.required_validations).map (fun i =>
    Validator.mk ((claimCandidates a).getD
      ((clock_slot % (claimCandidates a).length + i) %
        (claimCandidates a).length) 0) .Pending)

/-- Source: `claim_task` (claim_task.rs lines 43-124).  `clock_slot` is the value of
`Clock::get()?.slot`; `rent_exempt_minimum` is `Rent::minimum_balance(0)`. -/
def claim_task (rent_exempt_minimum clock_slot : Nat) (a : ClaimTaskAccs)
    (max_task_cost max_call_count : Nat) : Except Err ClaimTaskAccs := do
  req (a.task.status = .Pending) .InvalidTaskStatus
  req (a.session.status = .Active) .InvalidSessionStatus
  req (a.task.compute_node = some a.compute_node) .InvalidComputeNodePubkey
  req (a.session.total_shares > 0) .Overflow
  req ((claimCandidates a).length ≥ a.network_config.required_validations)
    .NotEnoughValidators
  -- `(clock.slot as usize) % candidates.len()` panics on an empty list
  req ((claimCandidates a).length > 0) .RuntimePanic
  let validations := claimSlate a clock_slot
  let available_balance ← available_balance_checked a.vault
    a.session.locked_for_tasks rent_exempt_minimum
  req (available_balance ≥ max_task_cost) .InsufficientBalance
  let locked' ← okOr (checkedAdd a.session.locked_for_tasks max_task_cost)
    .Overflow
  let task_index' ← okOr (checkedAdd a.task.task_index 1) .Overflow
  let task' := { a.task with validations := validations, max_task_cost := max_task_cost, max_call_count := max_call_count, status := TaskStatus.Processing, task_index := task_index' }
  .ok { a with session := { a.session with locked_for_tasks := locked' }, task := task' }

/-! ## contribute / withdraw (instructions/contribute_to_session.rs,
withdraw_from_session.rs; contribute_to_goal.rs / withdraw_from_goal.rs are
the field-for-field goal-generation twins of the same logic) -/

/-- Accounts shared by contribute and withdraw.  `contribution` is the
caller's per-(session, contributor) record; `init_if_needed` supplies a
zeroed record when none exists yet (`session = Pubkey::default() = 0`). -/
structure ContributeAccs where
  contributor : Nat
  session : Session
  vault : Nat
  contribution : Contribution
  network_config : NetworkConfig
  deriving DecidableEq, Repr

/-- The `share_price` computation of `contribute_to_session`: on an empty
pool the price is the constant 1.0 with no balance read; otherwise the
available balance is computed with the source's two checked subtractions
(whose `Underflow` failures are the only effect the `f64` price can have on
control flow). -/
def share_price_guard (rent_exempt_minimum : Nat) (a : ContributeAccs) :
    Except Err Nat :=
  if a.session.total_shares = 0 then .ok 0
  else available_balance_checked a.vault a.session.locked_for_tasks
    rent_exempt_minimum

/-- The contribution-record update of `contribute_to_session`: a zeroed
(`init_if_needed`) record is initialised, an existing record is
ownership-checked and its share balance grown with `checked_add`. -/
def contribution_update (session_key : Nat) (a : ContributeAccs)
    (shares_to_mint : Nat) : Except Err Contribution :=
  if a.contribution.session = 0 then
    .ok { a.contribution with session := session_key, contributor := a.contributor, shares := shares_to_mint, refund_amount := 0 }
  else do
    req (a.contribution.session = session_key) .InvalidPDAAccount
    req (a.contribution.contributor = a.contributor) .InvalidPDAAccount
    let shares' ← okOr (checkedAdd a.contribution.shares shares_to_mint)
      .Overflow
    .ok { a.contribution with shares := shares' }

/-- Source: `contribute_to_session` (contribute_to_goal.rs lines 45-123 is the
field-for-field goal-generation twin).  `session_key` is the address of the
session account (`self.session.key()`, nonzero for any real account).
`shares_oracle` is the value of the `f64` expression
`(deposit_amount as f64 / share_price) as u64` (see the module docstring). -/
def contribute_to_session (rent_exempt_minimum session_key : Nat)
    (a : ContributeAccs) (deposit_amount shares_oracle : Nat) :
    Except Err ContributeAccs := do
  req (a.session.status = .Active) .InvalidSessionStatus
  req (deposit_amount > 0) .Overflow
  let _ ← share_price_guard rent_exempt_minimum a
  let shares_to_mint := shares_oracle
  req (shares_to_mint > 0) .Overflow
  -- transfer deposit_amount: contributor → vault
  let vault' := a.vault + deposit_amount
  let contribution' ← contribution_update session_key a shares_to_mint
  let total_shares' ← okOr (checkedAdd a.session.total_shares shares_to_mint)
    .Overflow
  .ok { a with vault := vault', contribution := contribution', session := { a.session with total_shares := total_shares' } }

/-- Source: `withdraw_from_session` (withdraw_from_goal.rs lines 43-107 in the goal
generation).  `amount_oracle` is the value of the `f64` expression
`(shares_to_burn as f64 * share_price) as u64`; the source's own guard
bounds it by the available balance. -/
def withdraw_from_session (rent_exempt_minimum : Nat) (a : ContributeAccs)
    (shares_to_burn amount_oracle : Nat) : Except Err ContributeAccs := do
  req (a.session.status = .Active) .InvalidSessionStatus
  req (shares_to_burn > 0) .Overflow
  req (a.contribution.shares ≥ shares_to_burn) .Underflow
  let available_balance ← available_balance_checked a.vault
    a.session.locked_for_tasks rent_exempt_minimum
  let withdraw_amount := amount_oracle
  req (withdraw_amount ≤ available_balance) .InsufficientBalance
  -- transfer withdraw_amount: vault → contributor
  let vault' := a.vault - withdraw_amount
  let contribution_shares' ← okOr (checkedSub a.contribution.shares
    shares_to_burn) .Underflow
  let total_shares' ← okOr (checkedSub a.session.total_shares shares_to_burn)
    .Underflow
  .ok { a with vault := vault', contribution := { a.contribution with shares := contribution_shares' }, session := { a.session with total_shares := total_shares' } }

/-! ## submit_task / submit_task_result -/

structure SubmitTaskAccs where
  owner : Nat
  task : Task
  session : Session
  network_config : NetworkConfig
  deriving DecidableEq, Repr

/-- Source: `submit_task` (instructions/submit_task.rs).  The Anchor account
constraint `has_one = owner` on `session` is modelled as an explicit check. -/
def submit_task (a : SubmitTaskAccs) (input_cid : List Nat) :
    Except Err SubmitTaskAccs := do
  req (a.session.owner = a.owner) .InvalidPDAAccount
  req (a.task.status = .Ready) .InvalidTaskStatus
  req (a.session.status = .Active) .InvalidSessionStatus
  req (a.task.session_slot_id = some a.session.session_slot_id) .InvalidSession
  .ok { a with task := { a.task with pending_input_cid := some input_cid, status := TaskStatus.Pending } }

structure SubmitTaskResultAccs where
  compute_node : Nat
  task : Task
  deriving DecidableEq, Repr

/-- Source: `submit_task_result` (instructions/submit_task_result.rs).  The `goal`
account in its context is never read or written by the body and is omitted. -/
def submit_task_result (a : SubmitTaskResultAccs)
    (input_cid output_cid next_input_cid : List Nat) :
    Except Err SubmitTaskResultAccs := do
  req (a.task.status = .Processing) .InvalidTaskStatus
  req (a.task.compute_node = some a.compute_node) .InvalidComputeNodePubkey
  req (input_cid.length ≤ 128) .InvalidCID
  req (output_cid.length ≤ 128) .InvalidCID
  .ok { a with task := { a.task with
    pending_input_cid := some input_cid,
    pending_output_cid := some output_cid,
    next_input_cid := some next_input_cid,
    status := .AwaitingValidation } }

/-! ## validate_public_node (instructions/validate_public_node.rs) -/

structure ValidatePublicNodeAccs where
  node_validating : Nat
  network_config : NetworkConfig
  node_validating_info : NodeInfo
  node_info : NodeInfo
  deriving DecidableEq, Repr

/-- Source: `validate_public_node` (validate_public_node.rs lines 43-100). -/
def validate_public_node (a : ValidatePublicNodeAccs) (approved : Bool) :
    Except Err ValidatePublicNodeAccs := do
  req (a.node_validating_info.status = .Active) .InvalidNodeStatus
  req (a.node_info.status = .AwaitingValidation) .InvalidNodeStatus
  req (a.node_validating_info.node_type = .Public ∨
    a.node_validating_info.node_type = .Confidential) .InvalidNodeType
  req (a.node_info.node_type = .Public) .InvalidNodeType
  req (¬ a.node_info.approved_validators.contains a.node_validating ∧
    ¬ a.node_info.rejected_validators.contains a.node_validating)
    .DuplicateValidation
  if approved then do
    let approved_list := a.node_info.approved_validators ++ [a.node_validating]
    let threshold_reached ← check_validation_threshold approved_list.length
      a.network_config.required_validations
    if threshold_reached then do
      let config' ← a.network_config.increment_public_node_count
      let node_info' := { a.node_info with approved_validators := approved_list, status := NodeStatus.Active }
      .ok { a with node_info := node_info', network_config := config' }
    else
      .ok { a with node_info := { a.node_info with approved_validators := approved_list } }
  else
    let node_info' := { a.node_info with rejected_validators := a.node_info.rejected_validators ++ [a.node_validating], status := NodeStatus.Rejected }
    .ok { a with node_info := node_info' }

/-! ## A per-campaign world and operation sequences

The world gathers every account a single campaign's lifecycle touches: the
session record, its task, the session vault's lamports, the contribution
records of the campaign, the network config, the record and treasury of the
task's compute node, and — for the goal-generation audit trail — the
`chain_proof` of the campaign's `Goal` record (state/goal.rs line 25), which
no embedded instruction lists among its accounts and which therefore no
embedded instruction can mutate. -/
structure World where
  session : Session
  task : Task
  vault : Nat
  contributions : List Contribution
  network_config : NetworkConfig
  node_info : NodeInfo
  node_treasury : Nat
  goal_chain_proof : List Nat
  deriving DecidableEq, Repr

/-- The caller's per-(session, contributor) record, if it exists: PDA
addressing guarantees at most one record per contributor. -/
def findContribution : List Contribution → Nat → Option Contribution
  | [], _ => none
  | c :: rest, who =>
      if c.contributor = who then some c else findContribution rest who

/-- Write back the (unique) record of the given contributor. -/
def updateContribution : List Contribution → Nat → Contribution →
    List Contribution
  | [], _, _ => []
  | c :: rest, who, c' =>
      if c.contributor = who then c' :: rest
      else c :: updateContribution rest who c'

/-- Source: `Σ contribution.shares` over a campaign's contribution records. -/
def sumShares (l : List Contribution) : Nat :=
  (l.map Contribution.shares).sum

/-- A sysvar with no co-submitted instructions (the public validation path
never reads it). -/
def emptySysvar : Sysvar := ⟨0, []⟩

/-- The operations of the campaign lifecycle, with their caller-supplied
arguments.  `contribute`/`withdraw` carry the oracle value of the source's
`f64` computation (see the module docstring); `claimTask` carries the
`Clock` slot observed by the call; `validate` carries the calling
validator's node record (its signer is that record's `node_pubkey`, which
the `validator_node_info` PDA seeds tie to the signing key). -/
inductive Op
  | submitTask (owner : Nat) (input_cid : List Nat)
  | contribute (who deposit_amount shares_oracle : Nat)
  | withdraw (who shares_to_burn amount_oracle : Nat)
  | claimTask (signer clock_slot max_task_cost max_call_count : Nat)
  | submitResult (signer : Nat) (input_cid output_cid next_input_cid : List Nat)
  | validate (validator_node_info : NodeInfo) (payment_amount : Nat)
      (approved goal_completed : Bool)
  deriving Repr

/-- Apply one operation to the world: wire the accounts the corresponding
instruction declares, run it, and write its accounts back.  `session_key` is
the session account's address. -/
def applyOp (rent_exempt_minimum session_key : Nat) (w : World) :
    Op → Except Err World
  | .submitTask owner input_cid => do
      let r ← submit_task ⟨owner, w.task, w.session, w.network_config⟩ input_cid
      .ok { w with task := r.task, session := r.session }
  | .contribute who deposit_amount shares_oracle => do
      let c0 := (findContribution w.contributions who).getD ⟨0, 0, 0, 0⟩
      let r ← contribute_to_session rent_exempt_minimum session_key
        ⟨who, w.session, w.vault, c0, w.network_config⟩ deposit_amount
        shares_oracle
      let contributions' := match findContribution w.contributions who with
        | some _ => updateContribution w.contributions who r.contribution
        | none => w.contributions ++ [r.contribution]
      .ok { w with session := r.session, vault := r.vault, contributions := contributions' }
  | .withdraw who shares_to_burn amount_oracle => do
      -- the withdraw context has no init_if_needed: a caller without a
      -- contribution record has no account to pass
      let c ← okOr (findContribution w.contributions who) .InvalidPDAAccount
      let r ← withdraw_from_session rent_exempt_minimum
        ⟨who, w.session, w.vault, c, w.network_config⟩ shares_to_burn
        amount_oracle
      .ok { w with session := r.session, vault := r.vault, contributions := updateContribution w.contributions who r.contribution }
  | .claimTask signer clock_slot max_task_cost max_call_count => do
      let r ← claim_task rent_exempt_minimum clock_slot
        ⟨signer, w.task, w.session, w.vault, w.network_config⟩ max_task_cost
        max_call_count
      .ok { w with task := r.task, session := r.session }
  | .submitResult signer input_cid output_cid next_input_cid => do
      let r ← submit_task_result ⟨signer, w.task⟩ input_cid output_cid
        next_input_cid
      .ok { w with task := r.task }
  | .validate validator_node_info payment_amount approved goal_completed => do
      let a : SubmitTaskValidationAccs :=
        ⟨validator_node_info.node_pubkey, w.session, w.vault, w.task,
          w.node_info, w.node_treasury, validator_node_info,
          w.network_config, emptySysvar⟩
      let r ← submit_public_task_validation a payment_amount approved
        goal_completed
      .ok { w with session := r.session, vault := r.vault, task := r.task, node_info := r.node_info, node_treasury := r.node_treasury, network_config := r.network_config }

/-- Run a sequence of operations, failing if any operation fails. -/
def runOps (rent_exempt_minimum session_key : Nat) (w : World) :
    List Op → Except Err World
  | [] => .ok w
  | op :: ops => do
      let w2 ← applyOp rent_exempt_minimum session_key w op
      runOps rent_exempt_minimum session_key w2 ops

/-- A payment-bounded operation: an approving validation that reaches the
threshold (its vote brings the approved count to the configured quorum, so
the payment transfer actually runs) may declare at most the task's current
cost ceiling.  Below-threshold approvals move no funds and are unrestricted,
as are all other operations. -/
def safeOp (w : World) : Op → Bool
  | .validate vinfo payment_amount true _ =>
      !(decide (w.network_config.required_validations ≤
          approvedCount (flipFirst vinfo.node_pubkey .Approved
            w.task.validations))) ||
        decide (payment_amount ≤ w.task.max_task_cost)
  | _ => true

/-- A successful run whose threshold-reaching approvals all declare payments
within the task's cost ceiling. -/
inductive SafeRun (rent_exempt_minimum session_key : Nat) :
    World → List Op → World → Prop
  | nil (w : World) : SafeRun rent_exempt_minimum session_key w [] w
  | cons (w : World) (op : Op) (w2 : World) (ops : List Op) (w3 : World) :
      applyOp rent_exempt_minimum session_key w op = .ok w2 →
      safeOp w op = true →
      SafeRun rent_exempt_minimum session_key w2 ops w3 →
      SafeRun rent_exempt_minimum session_key w (op :: ops) w3

/-- Claim C1's first invariant: the campaign's `total_shares` equals the sum
of its contributors' shares. -/
def SharesInv (w : World) : Prop :=
  w.session.total_shares = sumShares w.contributions

/-- Claim C1's second invariant: the vault covers `locked_for_tasks` plus the
rent-exempt minimum. -/
def EscrowInv (rent_exempt_minimum : Nat) (w : World) : Prop :=
  w.session.locked_for_tasks + rent_exempt_minimum ≤ w.vault

/-- Structural well-formedness: every stored contribution record belongs to
this session (PDA addressing guarantees this on chain). -/
def WfContribs (session_key : Nat) (w : World) : Prop :=
  ∀ c ∈ w.contributions, c.session = session_key

/-- The state of the world right after `set_session` activated the campaign
with an initial deposit (set_session.rs lines 60-185) and the compute node's
records: vault funded with the rent minimum plus the deposit, owner holding
`initial_deposit` shares (first deposit at share price exactly 1.0), nothing
locked, task `Ready` and bound to the compute node, goal audit hash at its
creation value. -/
def freshWorld (rent_exempt_minimum session_key initial_deposit : Nat)
    (s0 : Session) (t0 : Task) (cfg : NetworkConfig) (ni : NodeInfo)
    (treasury0 : Nat) (g0 : List Nat) : World where
  session := { s0 with status := .Active, total_shares := initial_deposit, locked_for_tasks := 0, current_iteration := 0 }
  task := { t0 with status := .Ready, compute_node := some ni.node_pubkey, validations := [] }
  vault := rent_exempt_minimum + initial_deposit
  contributions := [⟨session_key, s0.owner, initial_deposit, 0⟩]
  network_config := cfg
  node_info := ni
  node_treasury := treasury0
  goal_chain_proof := g0

/-! ## Inversion lemmas for the validation instruction -/

theorem validate_common_ok {a : SubmitTaskValidationAccs} :
    validate_common_requirements a = .ok () ↔
      (a.validator_node_info.status = .Active ∧ a.node_info.status = .Active ∧
       a.session.status = .Active ∧ a.task.status = .AwaitingValidation ∧
       a.task.compute_node = some a.node_info.node_pubkey) := by
  unfold validate_common_requirements
  simp [exceptBind_ok, req_ok]

theorem process_approved_below {a : SubmitTaskValidationAccs}
    {m : SubmitTaskValidationMessage} {a' : SubmitTaskValidationAccs}
    (h : process_approved_validation a m = .ok a')
    (hlt : approvedCount (flipFirst a.node_validating .Approved
      a.task.validations) < a.network_config.required_validations) :
    a' = { a with task := { a.task with validations := flipFirst a.node_validating .Approved a.task.validations } } := by
  unfold process_approved_validation check_validation_threshold at h
  simp only [exceptBind_ok, Except.ok.injEq] at h
  obtain ⟨b, hb, h⟩ := h
  subst hb
  rw [if_neg (by simp [Nat.not_le.mpr hlt])] at h
  simp only [Except.ok.injEq] at h
  exact h.symm

theorem process_approved_threshold_spec {a : SubmitTaskValidationAccs}
    {m : SubmitTaskValidationMessage} {a' : SubmitTaskValidationAccs}
    (h : process_approved_validation a m = .ok a')
    (hge : a.network_config.required_validations ≤ approvedCount
      (flipFirst a.node_validating .Approved a.task.validations)) :
    a.task.max_task_cost ≤ a.session.locked_for_tasks ∧
    a'.session.locked_for_tasks = a.session.locked_for_tasks - a.task.max_task_cost ∧
    m.payment_amount ≤ a.vault ∧
    a'.vault = a.vault - m.payment_amount ∧
    a'.node_treasury = a.node_treasury + m.payment_amount ∧
    a'.session.current_iteration = a.session.current_iteration + 1 ∧
    a'.session.total_shares = a.session.total_shares ∧
    (a'.task.status = TaskStatus.Ready ∨ a'.task.status = TaskStatus.Pending) ∧
    a'.task.validations = [] ∧
    a'.task.chain_proof = sha256 (a.task.chain_proof ++ a.task.input_cid.getD [] ++ a.task.output_cid.getD [] ++ u64le a.task.task_index) ∧
    a'.task.max_task_cost = a.task.max_task_cost ∧
    a'.network_config = a.network_config ∧
    a'.node_validating = a.node_validating := by
  unfold process_approved_validation check_validation_threshold at h
  simp only [exceptBind_ok, Except.ok.injEq, okOr_ok] at h
  obtain ⟨b, hb, h⟩ := h
  subst hb
  rw [if_pos (by simp [hge])] at h
  simp only [exceptBind_ok, Except.ok.injEq, okOr_ok] at h
  obtain ⟨locked', hl, h⟩ := h
  obtain ⟨u, hu, h⟩ := h
  rw [req_ok] at hu
  obtain ⟨te, hte, h⟩ := h
  obtain ⟨tc, htc, h⟩ := h
  obtain ⟨it, hit, h⟩ := h
  rw [checkedSub_some] at hl
  rw [checkedAdd_some] at hit
  split at h <;> simp only [Except.ok.injEq] at h <;> subst h <;> simp_all

theorem process_rejected_below {a : SubmitTaskValidationAccs}
    {a' : SubmitTaskValidationAccs}
    (h : process_rejected_validation a = .ok a')
    (hlt : rejectedCount (flipFirst a.node_validating .Rejected
      a.task.validations) < a.network_config.required_validations) :
    a' = { a with task := { a.task with validations := flipFirst a.node_validating .Rejected a.task.validations } } := by
  unfold process_rejected_validation check_validation_threshold at h
  simp only [exceptBind_ok, Except.ok.injEq] at h
  obtain ⟨b, hb, h⟩ := h
  subst hb
  rw [if_neg (by simp [Nat.not_le.mpr hlt])] at h
  simp only [Except.ok.injEq] at h
  exact h.symm

theorem process_rejected_threshold_spec {a : SubmitTaskValidationAccs}
    {a' : SubmitTaskValidationAccs}
    (h : process_rejected_validation a = .ok a')
    (hge : a.network_config.required_validations ≤ rejectedCount
      (flipFirst a.node_validating .Rejected a.task.validations)) :
    a.task.max_task_cost ≤ a.session.locked_for_tasks ∧
    a'.session.locked_for_tasks = a.session.locked_for_tasks - a.task.max_task_cost ∧
    a'.vault = a.vault ∧
    a'.node_treasury = a.node_treasury ∧
    a'.session.total_shares = a.session.total_shares ∧
    a'.session.current_iteration = a.session.current_iteration ∧
    a'.task.status = TaskStatus.Ready ∧
    a'.task.validations = [] ∧
    a'.network_config = a.network_config := by
  unfold process_rejected_validation check_validation_threshold at h
  simp only [exceptBind_ok, Except.ok.injEq] at h
  obtain ⟨b, hb, h⟩ := h
  subst hb
  rw [if_pos (by simp [hge])] at h
  simp only [exceptBind_ok, Except.ok.injEq, okOr_ok] at h
  obtain ⟨locked', hl, h⟩ := h
  rw [checkedSub_some] at hl
  subst h
  simp_all

theorem submit_public_ok_inversion {a : SubmitTaskValidationAccs}
    {p : Nat} {ap gc : Bool} {a' : SubmitTaskValidationAccs}
    (h : submit_public_task_validation a p ap gc = .ok a') :
    validate_common_requirements a = .ok () ∧
    a.session.is_confidential = false ∧
    (a.validator_node_info.node_type = .Public ∨
      a.validator_node_info.node_type = .Confidential) ∧
    (∃ v, a.task.validations.find? (fun x => x.pubkey == a.node_validating) =
      some v ∧ v.status = .Pending) ∧
    (ap = true → process_approved_validation a ⟨a.session.session_slot_id, a.task.task_slot_id, p, List.replicate 32 0, ap, gc⟩ = .ok a') ∧
    (ap = false → process_rejected_validation a = .ok a') := by
  unfold submit_public_task_validation at h
  simp only [exceptBind_ok, req_ok, okOr_ok, Except.ok.injEq, exists_const] at h
  obtain ⟨u, hu, h⟩ := h
  obtain ⟨hconf, h⟩ := h
  obtain ⟨htype, h⟩ := h
  obtain ⟨v, hv, hst, h⟩ := h
  cases u
  refine ⟨hu, hconf, htype, ⟨v, hv, hst⟩, ?_, ?_⟩ <;> intro hap <;> subst hap <;>
    simp_all

/-! ## Inversion lemmas for the remaining instructions -/

theorem available_balance_checked_ok {vault locked rent av : Nat}
    (h : available_balance_checked vault locked rent = .ok av) :
    locked + rent ≤ vault ∧ av = vault - locked - rent := by
  unfold available_balance_checked at h
  simp only [exceptBind_ok, okOr_ok] at h
  obtain ⟨x, hx, h⟩ := h
  rw [checkedSub_some] at hx h
  omega

theorem claim_task_ok_inversion {rent_exempt_minimum clock_slot : Nat}
    {a : ClaimTaskAccs} {max_task_cost max_call_count : Nat}
    {r : ClaimTaskAccs}
    (h : claim_task rent_exempt_minimum clock_slot a max_task_cost
      max_call_count = .ok r) :
    a.task.status = .Pending ∧ a.session.status = .Active ∧
    a.task.compute_node = some a.compute_node ∧
    0 < a.session.total_shares ∧
    a.network_config.required_validations ≤ (claimCandidates a).length ∧
    0 < (claimCandidates a).length ∧
    a.session.locked_for_tasks + rent_exempt_minimum ≤ a.vault ∧
    max_task_cost ≤ a.vault - a.session.locked_for_tasks - rent_exempt_minimum ∧
    a.session.locked_for_tasks + max_task_cost ≤ u64Max ∧
    r.session = { a.session with locked_for_tasks := a.session.locked_for_tasks + max_task_cost } ∧
    r.task = { a.task with validations := claimSlate a clock_slot, max_task_cost := max_task_cost, max_call_count := max_call_count, status := TaskStatus.Processing, task_index := a.task.task_index + 1 } ∧
    r.vault = a.vault ∧ r.network_config = a.network_config ∧
    r.compute_node = a.compute_node := by
  unfold claim_task at h
  simp only [exceptBind_ok, req_ok, okOr_ok, Except.ok.injEq, exists_const] at h
  obtain ⟨h1, h2, h3, h4, h5, h6, av, hav, h7, l, hl, ti, hti, h⟩ := h
  obtain ⟨hle, hav'⟩ := available_balance_checked_ok hav
  rw [checkedAdd_some] at hl hti
  subst h
  refine ⟨h1, h2, h3, h4, h5, h6, hle, by omega, by omega, ?_, ?_, rfl, rfl, rfl⟩
  · simp [hl.2]
  · simp [hti.2]

theorem contribution_update_ok {session_key : Nat} {a : ContributeAccs}
    {shares_to_mint : Nat} {c' : Contribution}
    (h : contribution_update session_key a shares_to_mint = .ok c') :
    (a.contribution.session = 0 ∧
      c' = { session := session_key, contributor := a.contributor, shares := shares_to_mint, refund_amount := 0 }) ∨
    (a.contribution.session ≠ 0 ∧ a.contribution.session = session_key ∧
      a.contribution.contributor = a.contributor ∧
      a.contribution.shares + shares_to_mint ≤ u64Max ∧
      c' = { a.contribution with shares := a.contribution.shares + shares_to_mint }) := by
  unfold contribution_update at h
  by_cases hz : a.contribution.session = 0
  · rw [if_pos hz] at h
    simp only [Except.ok.injEq] at h
    exact Or.inl ⟨hz, h.symm⟩
  · rw [if_neg hz] at h
    simp only [exceptBind_ok, req_ok, okOr_ok, Except.ok.injEq, exists_const] at h
    obtain ⟨hk, hco, s', hs', h⟩ := h
    rw [checkedAdd_some] at hs'
    refine Or.inr ⟨hz, hk, hco, hs'.1, ?_⟩
    rw [← h]
    simp [hs'.2]

theorem contribute_ok_inversion {rent_exempt_minimum session_key : Nat}
    {a : ContributeAccs} {deposit_amount shares_oracle : Nat}
    {r : ContributeAccs}
    (h : contribute_to_session rent_exempt_minimum session_key a
      deposit_amount shares_oracle = .ok r) :
    a.session.status = .Active ∧ 0 < deposit_amount ∧ 0 < shares_oracle ∧
    r.vault = a.vault + deposit_amount ∧
    a.session.total_shares + shares_oracle ≤ u64Max ∧
    r.session = { a.session with total_shares := a.session.total_shares + shares_oracle } ∧
    r.network_config = a.network_config ∧ r.contributor = a.contributor ∧
    contribution_update session_key a shares_oracle = .ok r.contribution := by
  unfold contribute_to_session at h
  simp only [exceptBind_ok, req_ok, okOr_ok, Except.ok.injEq, exists_const] at h
  obtain ⟨h1, h2, x, hx, h3, c', hc', t, ht, h⟩ := h
  rw [checkedAdd_some] at ht
  subst h
  exact ⟨h1, h2, h3, rfl, ht.1, by simp [ht.2], rfl, rfl, hc'⟩

theorem withdraw_ok_inversion {rent_exempt_minimum : Nat}
    {a : ContributeAccs} {shares_to_burn amount_oracle : Nat}
    {r : ContributeAccs}
    (h : withdraw_from_session rent_exempt_minimum a shares_to_burn
      amount_oracle = .ok r) :
    a.session.status = .Active ∧ 0 < shares_to_burn ∧
    shares_to_burn ≤ a.contribution.shares ∧
    a.session.locked_for_tasks + rent_exempt_minimum ≤ a.vault ∧
    amount_oracle ≤ a.vault - a.session.locked_for_tasks - rent_exempt_minimum ∧
    shares_to_burn ≤ a.session.total_shares ∧
    r.vault = a.vault - amount_oracle ∧
    r.session = { a.session with total_shares := a.session.total_shares - shares_to_burn } ∧
    r.contribution = { a.contribution with shares := a.contribution.shares - shares_to_burn } ∧
    r.network_config = a.network_config ∧ r.contributor = a.contributor := by
  unfold withdraw_from_session at h
  simp only [exceptBind_ok, req_ok, okOr_ok, Except.ok.injEq, exists_const] at h
  obtain ⟨h1, h2, h3, av, hav, h4, cs, hcs, t, ht, h⟩ := h
  obtain ⟨hle, hav'⟩ := available_balance_checked_ok hav
  rw [checkedSub_some] at hcs ht
  subst h
  exact ⟨h1, h2, h3, hle, by omega, ht.1, rfl, by simp [ht.2], by simp [hcs.2], rfl, rfl⟩

theorem submit_task_ok_inversion {a : SubmitTaskAccs} {input_cid : List Nat}
    {r : SubmitTaskAccs} (h : submit_task a input_cid = .ok r) :
    a.session.owner = a.owner ∧ a.task.status = .Ready ∧
    a.session.status = .Active ∧
    a.task.session_slot_id = some a.session.session_slot_id ∧
    r = { a with task := { a.task with pending_input_cid := some input_cid, status := TaskStatus.Pending } } := by
  unfold submit_task at h
  simp only [exceptBind_ok, req_ok, okOr_ok, Except.ok.injEq, exists_const] at h
  obtain ⟨h1, h2, h3, h4, h⟩ := h
  exact ⟨h1, h2, h3, h4, h.symm⟩

theorem submit_task_result_ok_inversion {a : SubmitTaskResultAccs}
    {input_cid output_cid next_input_cid : List Nat} {r : SubmitTaskResultAccs}
    (h : submit_task_result a input_cid output_cid next_input_cid = .ok r) :
    a.task.status = .Processing ∧ a.task.compute_node = some a.compute_node ∧
    input_cid.length ≤ 128 ∧ output_cid.length ≤ 128 ∧
    r = { a with task := { a.task with pending_input_cid := some input_cid, pending_output_cid := some output_cid, next_input_cid := some next_input_cid, status := TaskStatus.AwaitingValidation } } := by
  unfold submit_task_result at h
  simp only [exceptBind_ok, req_ok, okOr_ok, Except.ok.injEq, exists_const] at h
  obtain ⟨h1, h2, h3, h4, h⟩ := h
  exact ⟨h1, h2, h3, h4, h.symm⟩


theorem findContribution_eq {l : List Contribution} {who : Nat}
    {c : Contribution} (h : findContribution l who = some c) :
    c.contributor = who ∧ c ∈ l := by
  induction l with
  | nil => simp [findContribution] at h
  | cons hd tl ih =>
    by_cases hw : hd.contributor = who
    · simp [findContribution, hw] at h
      subst h
      exact ⟨hw, List.mem_cons_self hd tl⟩
    · simp [findContribution, hw] at h
      obtain ⟨h1, h2⟩ := ih h
      exact ⟨h1, List.mem_cons_of_mem hd h2⟩

theorem sumShares_update (c' : Contribution) {l : List Contribution}
    {who : Nat} {c : Contribution} (h : findContribution l who = some c) :
    sumShares (updateContribution l who c') + c.shares =
      sumShares l + c'.shares := by
  induction l with
  | nil => simp [findContribution] at h
  | cons hd tl ih =>
    by_cases hw : hd.contributor = who
    · simp [findContribution, hw] at h
      subst h
      simp [updateContribution, hw, sumShares]
      ring
    · simp [findContribution, hw] at h
      have hx := ih h
      simp [updateContribution, hw, sumShares] at hx ⊢
      omega

theorem updateContribution_mem {l : List Contribution} {who : Nat}
    {c' x : Contribution} (h : x ∈ updateContribution l who c') :
    x ∈ l ∨ x = c' := by
  induction l with
  | nil => simp [updateContribution] at h
  | cons hd tl ih =>
    by_cases hw : hd.contributor = who
    · simp [updateContribution, hw] at h
      rcases h with h | h
      · exact Or.inr h
      · exact Or.inl (List.mem_cons_of_mem hd h)
    · simp [updateContribution, hw] at h
      rcases h with h | h
      · exact Or.inl (by simp [h])
      · rcases ih h with h2 | h2
        · exact Or.inl (List.mem_cons_of_mem hd h2)
        · exact Or.inr h2

theorem sumShares_append_single (l : List Contribution) (c : Contribution) :
    sumShares (l ++ [c]) = sumShares l + c.shares := by
  simp [sumShares]


theorem applyOp_inv_preserved {rent sk : Nat} {w w' : World} {op : Op}
    (hsk : sk ≠ 0) (hshares : SharesInv w) (hescrow : EscrowInv rent w)
    (hwf : WfContribs sk w)
    (hok : applyOp rent sk w op = .ok w') (hsafe : safeOp w op = true) :
    SharesInv w' ∧ EscrowInv rent w' ∧ WfContribs sk w' := by
  cases op with
  | submitTask owner cid =>
      simp only [applyOp, exceptBind_ok] at hok
      obtain ⟨r, hr, hok⟩ := hok
      obtain ⟨-, -, -, -, hr⟩ := submit_task_ok_inversion hr
      subst hr
      simp only [Except.ok.injEq] at hok
      subst hok
      exact ⟨hshares, hescrow, hwf⟩
  | submitResult signer i o n =>
      simp only [applyOp, exceptBind_ok] at hok
      obtain ⟨r, hr, hok⟩ := hok
      obtain ⟨-, -, -, -, hr⟩ := submit_task_result_ok_inversion hr
      subst hr
      simp only [Except.ok.injEq] at hok
      subst hok
      exact ⟨hshares, hescrow, hwf⟩
  | claimTask signer slot cost calls =>
      simp only [applyOp, exceptBind_ok] at hok
      obtain ⟨r, hr, hok⟩ := hok
      obtain ⟨-, -, -, -, -, -, hle, hcost, -, hsess, -, -, -, -⟩ :=
        claim_task_ok_inversion hr
      simp only [Except.ok.injEq] at hok
      subst hok
      have hle2 : w.session.locked_for_tasks + rent ≤ w.vault := hle
      have hcost2 : cost ≤ w.vault - w.session.locked_for_tasks - rent := hcost
      have hsess2 : r.session = { w.session with locked_for_tasks := w.session.locked_for_tasks + cost } := hsess
      refine ⟨?_, ?_, hwf⟩
      · simpa [SharesInv, hsess2] using hshares
      · simp only [EscrowInv, hsess2]
        omega
  | contribute who deposit s =>
      simp only [applyOp] at hok
      cases hfind : findContribution w.contributions who with
      | none =>
          simp only [hfind, Option.getD_none, exceptBind_ok] at hok
          obtain ⟨r, hr, hok⟩ := hok
          obtain ⟨-, -, hs, hvault, -, hsess, -, -, hcu⟩ :=
            contribute_ok_inversion hr
          simp only [Except.ok.injEq] at hok
          subst hok
          have hvault2 : r.vault = w.vault + deposit := hvault
          have hsess2 : r.session = { w.session with total_shares := w.session.total_shares + s } := hsess
          rcases contribution_update_ok hcu with ⟨-, hc⟩ | ⟨hnz, -⟩
          · have hc2 : r.contribution = ⟨sk, who, s, 0⟩ := hc
            refine ⟨?_, ?_, ?_⟩
            · simp only [SharesInv, hsess2] at hshares ⊢
              rw [sumShares_append_single, hc2]
              simp [hshares]
            · simp only [EscrowInv, hsess2, hvault2] at hescrow ⊢
              omega
            · intro c hcmem
              rcases List.mem_append.mp hcmem with hm | hm
              · exact hwf c hm
              · simp at hm
                simp [hm, hc2]
          · exact absurd rfl hnz
      | some c0 =>
          simp only [hfind, Option.getD_some, exceptBind_ok] at hok
          obtain ⟨r, hr, hok⟩ := hok
          obtain ⟨-, -, hs, hvault, -, hsess, -, -, hcu⟩ :=
            contribute_ok_inversion hr
          simp only [Except.ok.injEq] at hok
          subst hok
          have hvault2 : r.vault = w.vault + deposit := hvault
          have hsess2 : r.session = { w.session with total_shares := w.session.total_shares + s } := hsess
          rcases contribution_update_ok hcu with ⟨hz, -⟩ | ⟨-, -, -, -, hc⟩
          · exfalso
            have hmem := (findContribution_eq hfind).2
            have := hwf c0 hmem
            have hz2 : c0.session = 0 := hz
            rw [hz2] at this
            exact hsk this.symm
          · have hc2 : r.contribution = { c0 with shares := c0.shares + s } := hc
            have hsum := sumShares_update r.contribution hfind
            have hshr : r.contribution.shares = c0.shares + s := by rw [hc2]
            refine ⟨?_, ?_, ?_⟩
            · simp only [SharesInv, hsess2] at hshares ⊢
              simp only [hshares]
              omega
            · simp only [EscrowInv, hsess2, hvault2] at hescrow ⊢
              omega
            · intro c hcmem
              rcases updateContribution_mem hcmem with hm | hm
              · exact hwf c hm
              · have : c0.session = sk := hwf c0 (findContribution_eq hfind).2
                rw [hm, hc2]
                exact this
  | withdraw who burn amt =>
      simp only [applyOp, exceptBind_ok, okOr_ok] at hok
      obtain ⟨c0, hfind, r, hr, hok⟩ := hok
      obtain ⟨-, -, hcs, hle, hamt, hburn, hvault, hsess, hcont, -, -⟩ :=
        withdraw_ok_inversion hr
      simp only [Except.ok.injEq] at hok
      subst hok
      have hcs2 : burn ≤ c0.shares := hcs
      have hle2 : w.session.locked_for_tasks + rent ≤ w.vault := hle
      have hamt2 : amt ≤ w.vault - w.session.locked_for_tasks - rent := hamt
      have hburn2 : burn ≤ w.session.total_shares := hburn
      have hvault2 : r.vault = w.vault - amt := hvault
      have hsess2 : r.session = { w.session with total_shares := w.session.total_shares - burn } := hsess
      have hcont2 : r.contribution = { c0 with shares := c0.shares - burn } := hcont
      have hsum := sumShares_update r.contribution hfind
      have hshr : r.contribution.shares = c0.shares - burn := by rw [hcont2]
      refine ⟨?_, ?_, ?_⟩
      · simp only [SharesInv, hsess2] at hshares ⊢
        simp only [hshares]
        omega
      · simp only [EscrowInv, hsess2, hvault2]
        omega
      · intro c hcmem
        rcases updateContribution_mem hcmem with hm | hm
        · exact hwf c hm
        · have : c0.session = sk := hwf c0 (findContribution_eq hfind).2
          rw [hm, hcont2]
          exact this
  | validate vinfo payment ap gc =>
      simp only [applyOp, exceptBind_ok] at hok
      obtain ⟨r, hr, hok⟩ := hok
      simp only [Except.ok.injEq] at hok
      subst hok
      obtain ⟨-, -, -, -, hap, hrj⟩ := submit_public_ok_inversion hr
      cases ap with
      | true =>
          have hpa := hap rfl
          by_cases hth : ({ node_validating := vinfo.node_pubkey, session := w.session, vault := w.vault, task := w.task, node_info := w.node_info, node_treasury := w.node_treasury, validator_node_info := vinfo, network_config := w.network_config, instruction_sysvar := emptySysvar } : SubmitTaskValidationAccs).network_config.required_validations ≤ approvedCount (flipFirst vinfo.node_pubkey .Approved w.task.validations)
          · have hth2 : w.network_config.required_validations ≤
                approvedCount (flipFirst vinfo.node_pubkey .Approved
                  w.task.validations) := hth
            have hpay : payment ≤ w.task.max_task_cost := by
              simp [safeOp] at hsafe
              rcases hsafe with h | h
              · omega
              · exact h
            obtain ⟨hcl, hlk, hpv, hv, -, -, hts, -, -, -, -, -, -⟩ :=
              process_approved_threshold_spec hpa hth
            have hcl2 : w.task.max_task_cost ≤ w.session.locked_for_tasks := hcl
            have hlk2 : r.session.locked_for_tasks = w.session.locked_for_tasks - w.task.max_task_cost := hlk
            have hpv2 : payment ≤ w.vault := hpv
            have hv2 : r.vault = w.vault - payment := hv
            have hts2 : r.session.total_shares = w.session.total_shares := hts
            have hesc : w.session.locked_for_tasks + rent ≤ w.vault := hescrow
            refine ⟨?_, ?_, hwf⟩
            · simp only [SharesInv, hts2]
              exact hshares
            · simp only [EscrowInv, hlk2, hv2]
              omega
          · have hr2 := process_approved_below hpa (Nat.lt_of_not_le hth)
            subst hr2
            exact ⟨hshares, hescrow, hwf⟩
      | false =>
          have hpr := hrj rfl
          by_cases hth : ({ node_validating := vinfo.node_pubkey, session := w.session, vault := w.vault, task := w.task, node_info := w.node_info, node_treasury := w.node_treasury, validator_node_info := vinfo, network_config := w.network_config, instruction_sysvar := emptySysvar } : SubmitTaskValidationAccs).network_config.required_validations ≤ rejectedCount (flipFirst vinfo.node_pubkey .Rejected w.task.validations)
          · obtain ⟨hcl, hlk, hv, -, hts, -, -, -, -⟩ :=
              process_rejected_threshold_spec hpr hth
            have hcl2 : w.task.max_task_cost ≤ w.session.locked_for_tasks := hcl
            have hlk2 : r.session.locked_for_tasks = w.session.locked_for_tasks - w.task.max_task_cost := hlk
            have hv2 : r.vault = w.vault := hv
            have hts2 : r.session.total_shares = w.session.total_shares := hts
            have hesc : w.session.locked_for_tasks + rent ≤ w.vault := hescrow
            refine ⟨?_, ?_, hwf⟩
            · simp only [SharesInv, hts2]
              exact hshares
            · simp only [EscrowInv, hlk2, hv2]
              omega
          · have hr2 := process_rejected_below hpr (Nat.lt_of_not_le hth)
            subst hr2
            exact ⟨hshares, hescrow, hwf⟩


theorem safeRun_inv_preserved {rent sk : Nat} {w w' : World} {ops : List Op}
    (hsk : sk ≠ 0)
    (hrun : SafeRun rent sk w ops w')
    (hshares : SharesInv w) (hescrow : EscrowInv rent w)
    (hwf : WfContribs sk w) :
    SharesInv w' ∧ EscrowInv rent w' ∧ WfContribs sk w' := by
  induction hrun with
  | nil w => exact ⟨hshares, hescrow, hwf⟩
  | cons w op w2 ops w3 hok hsafe _ ih =>
      obtain ⟨h1, h2, h3⟩ :=
        applyOp_inv_preserved hsk hshares hescrow hwf hok hsafe
      exact ih h1 h2 h3

theorem freshWorld_inv (rent sk d : Nat) (s0 : Session) (t0 : Task)
    (cfg : NetworkConfig) (ni : NodeInfo) (tr0 : Nat) (g0 : List Nat) :
    SharesInv (freshWorld rent sk d s0 t0 cfg ni tr0 g0) ∧
    EscrowInv rent (freshWorld rent sk d s0 t0 cfg ni tr0 g0) ∧
    WfContribs sk (freshWorld rent sk d s0 t0 cfg ni tr0 g0) := by
  refine ⟨?_, ?_, ?_⟩
  · simp [SharesInv, freshWorld, sumShares]
  · simp [EscrowInv, freshWorld]
  · intro c hc
    simp [freshWorld] at hc
    simp [hc]


theorem okOr_some {a : α} {e : Err} : okOr (some a) e = .ok a := rfl

theorem ok_bind {α β : Type} {a : α} {f : α → Except Err β} :
    (Except.ok a >>= f) = f a := rfl

theorem error_bind {α β : Type} {e : Err} {f : α → Except Err β} :
    ((Except.error e : Except Err α) >>= f) = .error e := rfl

theorem req_pos {c : Prop} [Decidable c] {e : Err} (h : c) :
    req c e = .ok () := by
  simp [req, h]

theorem req_neg {c : Prop} [Decidable c] {e : Err} (h : ¬c) :
    req c e = .error e := by
  simp [req, h]

theorem approvedCount_cons {v : Validator} {l : List Validator} :
    approvedCount (v :: l) =
      (if v.status = .Approved then 1 else 0) + approvedCount l := by
  by_cases hv : v.status = .Approved
  · simp [approvedCount, List.filter_cons, hv]
    omega
  · simp [approvedCount, List.filter_cons, hv]

theorem find_flipFirst {pk : Nat} {st : ValidationStatus}
    {l : List Validator} {v : Validator}
    (h : l.find? (fun x => x.pubkey == pk) = some v) :
    (flipFirst pk st l).find? (fun x => x.pubkey == pk) =
      some { v with status := st } := by
  induction l with
  | nil => simp at h
  | cons hd tl ih =>
    by_cases hp : hd.pubkey = pk
    · rw [List.find?_cons_of_pos _ (by simp [hp])] at h
      injection h with h
      subst h
      unfold flipFirst
      rw [if_pos hp]
      rw [List.find?_cons_of_pos _ (by simp [hp])]
    · rw [List.find?_cons_of_neg _ (by simp [hp])] at h
      unfold flipFirst
      rw [if_neg hp]
      rw [List.find?_cons_of_neg _ (by simp [hp])]
      exact ih h

theorem approvedCount_flip_pos {pk : Nat} {l : List Validator} {v : Validator}
    (h : l.find? (fun x => x.pubkey == pk) = some v) :
    1 ≤ approvedCount (flipFirst pk .Approved l) := by
  induction l with
  | nil => simp at h
  | cons hd tl ih =>
    by_cases hp : hd.pubkey = pk
    · unfold flipFirst
      rw [if_pos hp]
      rw [approvedCount_cons]
      simp
    · rw [List.find?_cons_of_neg _ (by simp [hp])] at h
      unfold flipFirst
      rw [if_neg hp]
      rw [approvedCount_cons]
      have := ih h
      omega

/-- A second vote by a validator whose slate entry is no longer `Pending`
fails with `DuplicateValidation`. -/
theorem submit_public_duplicate_error {a : SubmitTaskValidationAccs}
    {p : Nat} {ap gc : Bool} {v : Validator}
    (hcommon : validate_common_requirements a = .ok ())
    (hconf : a.session.is_confidential = false)
    (htype : a.validator_node_info.node_type = .Public ∨
      a.validator_node_info.node_type = .Confidential)
    (hfind : a.task.validations.find? (fun x => x.pubkey == a.node_validating) =
      some v)
    (hst : v.status ≠ .Pending) :
    submit_public_task_validation a p ap gc = .error .DuplicateValidation := by
  unfold submit_public_task_validation
  rw [hcommon, ok_bind, req_pos hconf, ok_bind, req_pos htype, ok_bind]
  rw [show okOr (a.task.validations.find? (fun x => x.pubkey == a.node_validating)) Err.ValidatorNotAssigned = .ok v from by rw [hfind]; rfl]
  rw [ok_bind, req_neg hst, error_bind]


theorem validate_public_node_ok_inversion {a : ValidatePublicNodeAccs}
    {approved : Bool} {r : ValidatePublicNodeAccs}
    (h : validate_public_node a approved = .ok r) :
    a.node_validating_info.status = .Active ∧
    a.node_info.status = .AwaitingValidation ∧
    (a.node_validating_info.node_type = .Public ∨
      a.node_validating_info.node_type = .Confidential) ∧
    a.node_info.node_type = .Public ∧
    ¬ a.node_info.approved_validators.contains a.node_validating ∧
    ¬ a.node_info.rejected_validators.contains a.node_validating ∧
    ((approved = true ∧
      (a.network_config.required_validations ≤ a.node_info.approved_validators.length + 1 →
        r.node_info.status = .Active) ∧
      (a.node_info.approved_validators.length + 1 < a.network_config.required_validations →
        r = { a with node_info := { a.node_info with approved_validators := a.node_info.approved_validators ++ [a.node_validating] } })) ∨
     (approved = false ∧ r.node_info.status = .Rejected)) := by
  unfold validate_public_node at h
  simp only [exceptBind_ok, req_ok, okOr_ok, Except.ok.injEq, exists_const] at h
  obtain ⟨h1, h2, h3, h4, ⟨h5, h6⟩, h⟩ := h
  refine ⟨h1, h2, h3, h4, h5, h6, ?_⟩
  cases approved with
  | true =>
      left
      simp only [if_pos] at h
      unfold check_validation_threshold at h
      simp only [exceptBind_ok, Except.ok.injEq] at h
      obtain ⟨b, hb, h⟩ := h
      subst hb
      refine ⟨rfl, ?_, ?_⟩
      · intro hge
        rw [if_pos (by simp; omega)] at h
        unfold NetworkConfig.increment_public_node_count at h
        simp only [exceptBind_ok, Except.ok.injEq] at h
        split at h
        · obtain ⟨cfg, hcfg, h⟩ := h
          subst h
          rfl
        · simp at h
      · intro hlt
        rw [if_neg (by simp; omega)] at h
        simp only [Except.ok.injEq] at h
        exact h.symm
  | false =>
      right
      simp only [if_neg (by simp : ¬ (false = true))] at h
      simp only [Except.ok.injEq] at h
      subst h
      exact ⟨rfl, rfl⟩

theorem validate_public_node_duplicate_error {a : ValidatePublicNodeAccs}
    {approved : Bool}
    (h1 : a.node_validating_info.status = .Active)
    (h2 : a.node_info.status = .AwaitingValidation)
    (h3 : a.node_validating_info.node_type = .Public ∨
      a.node_validating_info.node_type = .Confidential)
    (h4 : a.node_info.node_type = .Public)
    (hdup : a.node_info.approved_validators.contains a.node_validating ∨
      a.node_info.rejected_validators.contains a.node_validating) :
    validate_public_node a approved = .error .DuplicateValidation := by
  unfold validate_public_node
  rw [req_pos h1, ok_bind, req_pos h2, ok_bind, req_pos h3, ok_bind,
    req_pos h4, ok_bind]
  rw [req_neg (by tauto), error_bind]


theorem sliceOrPanic_ok {d : List Nat} {off len : Nat} {s : List Nat} :
    sliceOrPanic d off len = .ok s ↔
      off + len ≤ d.length ∧ s = (d.drop off).take len := by
  unfold sliceOrPanic
  split
  · simp_all
    exact eq_comm
  · simp_all

theorem verify_tee_signature_bytes_ok_inversion {sys : Sysvar}
    {expected : Nat} {msg : List Nat}
    (h : verify_tee_signature_bytes sys expected = .ok msg) :
    0 < sys.current_index ∧
    ∃ ix, sys.instructions.get? (sys.current_index - 1) = some ix ∧
      ix.program_id = ed25519ProgramId ∧ ix.accounts = [] ∧
      16 ≤ ix.data.length ∧
      (readOffsets ix.data).public_key_offset + 32 ≤ ix.data.length ∧
      (ix.data.drop (readOffsets ix.data).public_key_offset).take 32 =
        pubkeyBytes expected ∧
      (readOffsets ix.data).message_data_offset +
        (readOffsets ix.data).message_data_size ≤ ix.data.length ∧
      msg = (ix.data.drop (readOffsets ix.data).message_data_offset).take
        (readOffsets ix.data).message_data_size := by
  unfold verify_tee_signature_bytes at h
  simp only [exceptBind_ok, req_ok, okOr_ok, Except.ok.injEq, exists_const] at h
  obtain ⟨hidx, ix, hix, hpid, hacc, hlen, pkslice, hpk, msgslice, hmsg, hkey, h⟩ := h
  rw [sliceOrPanic_ok] at hpk hmsg
  refine ⟨hidx, ix, hix, hpid, hacc, hlen, hpk.1, ?_, hmsg.1, ?_⟩
  · rw [← hpk.2]
    exact hkey
  · rw [← h, hmsg.2]

theorem verify_tee_signature_ok_inversion {sys : Sysvar} {pk : Nat}
    {m : SubmitTaskValidationMessage}
    (h : verify_tee_signature sys pk = .ok m) :
    ∃ bytes, verify_tee_signature_bytes sys pk = .ok bytes ∧
      borshDeserializeMessage bytes = some m := by
  unfold verify_tee_signature at h
  simp only [exceptBind_ok, okOr_ok] at h
  exact h

theorem verify_confidential_ok_inversion {a : SubmitTaskValidationAccs}
    {m : SubmitTaskValidationMessage}
    (h : verify_confidential_validation a = .ok m) :
    a.validator_node_info.node_type = .Confidential ∧
    ∃ teePk, a.validator_node_info.tee_signing_pubkey = some teePk ∧
      verify_tee_signature a.instruction_sysvar teePk = .ok m ∧
      m.goal_id = a.session.session_slot_id ∧
      m.task_slot_id = a.task.task_slot_id ∧
      0 < m.payment_amount ∧
      verify_validation_proof a m = .ok () ∧
      ∃ v, a.task.validations.find?
        (fun x => x.pubkey == a.node_validating) = some v ∧
        v.status = .Pending := by
  unfold verify_confidential_validation at h
  simp only [exceptBind_ok, req_ok, okOr_ok, Except.ok.injEq, exists_const] at h
  obtain ⟨htype, teePk, hteePk, m2, hm2, hgid, htid, hpay, u, hproof, v, hv, hst, h⟩ := h
  subst h
  cases u
  exact ⟨htype, teePk, hteePk, hm2, hgid, htid, hpay, hproof, v, hv, hst⟩

theorem submit_confidential_ok_inversion {a a' : SubmitTaskValidationAccs}
    (h : submit_confidential_task_validation a = .ok a') :
    validate_common_requirements a = .ok () ∧
    a.session.is_confidential = true ∧
    ∃ m, verify_confidential_validation a = .ok m ∧
      ((m.approved = true ∧ process_approved_validation a m = .ok a') ∨
       (m.approved = false ∧ process_rejected_validation a = .ok a')) := by
  unfold submit_confidential_task_validation at h
  simp only [exceptBind_ok, req_ok, okOr_ok, Except.ok.injEq, exists_const] at h
  obtain ⟨u, hu, hconf, m, hm, h⟩ := h
  cases u
  refine ⟨hu, hconf, m, hm, ?_⟩
  cases ha : m.approved with
  | true =>
      left
      rw [if_pos (by simp [ha])] at h
      exact ⟨rfl, h⟩
  | false =>
      right
      rw [if_neg (by simp [ha])] at h
      exact ⟨rfl, h⟩


theorem applyOp_shares_preserved {rent sk : Nat} {w w' : World} {op : Op}
    (hsk : sk ≠ 0) (hshares : SharesInv w) (hwf : WfContribs sk w)
    (hok : applyOp rent sk w op = .ok w') :
    SharesInv w' ∧ WfContribs sk w' := by
  cases op with
  | submitTask owner cid =>
      simp only [applyOp, exceptBind_ok] at hok
      obtain ⟨r, hr, hok⟩ := hok
      obtain ⟨-, -, -, -, hr⟩ := submit_task_ok_inversion hr
      subst hr
      simp only [Except.ok.injEq] at hok
      subst hok
      exact ⟨hshares, hwf⟩
  | submitResult signer i o n =>
      simp only [applyOp, exceptBind_ok] at hok
      obtain ⟨r, hr, hok⟩ := hok
      obtain ⟨-, -, -, -, hr⟩ := submit_task_result_ok_inversion hr
      subst hr
      simp only [Except.ok.injEq] at hok
      subst hok
      exact ⟨hshares, hwf⟩
  | claimTask signer slot cost calls =>
      simp only [applyOp, exceptBind_ok] at hok
      obtain ⟨r, hr, hok⟩ := hok
      obtain ⟨-, -, -, -, -, -, -, -, -, hsess, -, -, -, -⟩ :=
        claim_task_ok_inversion hr
      simp only [Except.ok.injEq] at hok
      subst hok
      have hsess2 : r.session = { w.session with locked_for_tasks := w.session.locked_for_tasks + cost } := hsess
      exact ⟨by simpa [SharesInv, hsess2] using hshares, hwf⟩
  | contribute who deposit s =>
      simp only [applyOp] at hok
      cases hfind : findContribution w.contributions who with
      | none =>
          simp only [hfind, Option.getD_none, exceptBind_ok] at hok
          obtain ⟨r, hr, hok⟩ := hok
          obtain ⟨-, -, hs, -, -, hsess, -, -, hcu⟩ := contribute_ok_inversion hr
          simp only [Except.ok.injEq] at hok
          subst hok
          have hsess2 : r.session = { w.session with total_shares := w.session.total_shares + s } := hsess
          rcases contribution_update_ok hcu with ⟨-, hc⟩ | ⟨hnz, -⟩
          · have hc2 : r.contribution = ⟨sk, who, s, 0⟩ := hc
            refine ⟨?_, ?_⟩
            · simp only [SharesInv, hsess2] at hshares ⊢
              rw [sumShares_append_single, hc2]
              simp [hshares]
            · intro c hcmem
              rcases List.mem_append.mp hcmem with hm | hm
              · exact hwf c hm
              · simp at hm
                simp [hm, hc2]
          · exact absurd rfl hnz
      | some c0 =>
          simp only [hfind, Option.getD_some, exceptBind_ok] at hok
          obtain ⟨r, hr, hok⟩ := hok
          obtain ⟨-, -, hs, -, -, hsess, -, -, hcu⟩ := contribute_ok_inversion hr
          simp only [Except.ok.injEq] at hok
          subst hok
          have hsess2 : r.session = { w.session with total_shares := w.session.total_shares + s } := hsess
          rcases contribution_update_ok hcu with ⟨hz, -⟩ | ⟨-, -, -, -, hc⟩
          · exfalso
            have := hwf c0 (findContribution_eq hfind).2
            have hz2 : c0.session = 0 := hz
            rw [hz2] at this
            exact hsk this.symm
          · have hc2 : r.contribution = { c0 with shares := c0.shares + s } := hc
            have hsum := sumShares_update r.contribution hfind
            have hshr : r.contribution.shares = c0.shares + s := by rw [hc2]
            refine ⟨?_, ?_⟩
            · simp only [SharesInv, hsess2] at hshares ⊢
              simp only [hshares]
              omega
            · intro c hcmem
              rcases updateContribution_mem hcmem with hm | hm
              · exact hwf c hm
              · have : c0.session = sk := hwf c0 (findContribution_eq hfind).2
                rw [hm, hc2]
                exact this
  | withdraw who burn amt =>
      simp only [applyOp, exceptBind_ok, okOr_ok] at hok
      obtain ⟨c0, hfind, r, hr, hok⟩ := hok
      obtain ⟨-, -, hcs, -, -, hburn, -, hsess, hcont, -, -⟩ :=
        withdraw_ok_inversion hr
      simp only [Except.ok.injEq] at hok
      subst hok
      have hcs2 : burn ≤ c0.shares := hcs
      have hburn2 : burn ≤ w.session.total_shares := hburn
      have hsess2 : r.session = { w.session with total_shares := w.session.total_shares - burn } := hsess
      have hcont2 : r.contribution = { c0 with shares := c0.shares - burn } := hcont
      have hsum := sumShares_update r.contribution hfind
      have hshr : r.contribution.shares = c0.shares - burn := by rw [hcont2]
      refine ⟨?_, ?_⟩
      · simp only [SharesInv, hsess2] at hshares ⊢
        simp only [hshares]
        omega
      · intro c hcmem
        rcases updateContribution_mem hcmem with hm | hm
        · exact hwf c hm
        · have : c0.session = sk := hwf c0 (findContribution_eq hfind).2
          rw [hm, hcont2]
          exact this
  | validate vinfo payment ap gc =>
      simp only [applyOp, exceptBind_ok] at hok
      obtain ⟨r, hr, hok⟩ := hok
      simp only [Except.ok.injEq] at hok
      subst hok
      obtain ⟨-, -, -, -, hap, hrj⟩ := submit_public_ok_inversion hr
      cases ap with
      | true =>
          have hpa := hap rfl
          by_cases hth : ({ node_validating := vinfo.node_pubkey, session := w.session, vault := w.vault, task := w.task, node_info := w.node_info, node_treasury := w.node_treasury, validator_node_info := vinfo, network_config := w.network_config, instruction_sysvar := emptySysvar } : SubmitTaskValidationAccs).network_config.required_validations ≤ approvedCount (flipFirst vinfo.node_pubkey .Approved w.task.validations)
          · obtain ⟨-, -, -, -, -, -, hts, -, -, -, -, -, -⟩ :=
              process_approved_threshold_spec hpa hth
            have hts2 : r.session.total_shares = w.session.total_shares := hts
            exact ⟨by simp only [SharesInv, hts2]; exact hshares, hwf⟩
          · have hr2 := process_approved_below hpa (Nat.lt_of_not_le hth)
            subst hr2
            exact ⟨hshares, hwf⟩
      | false =>
          have hpr := hrj rfl
          by_cases hth : ({ node_validating := vinfo.node_pubkey, session := w.session, vault := w.vault, task := w.task, node_info := w.node_info, node_treasury := w.node_treasury, validator_node_info := vinfo, network_config := w.network_config, instruction_sysvar := emptySysvar } : SubmitTaskValidationAccs).network_config.required_validations ≤ rejectedCount (flipFirst vinfo.node_pubkey .Rejected w.task.validations)
          · obtain ⟨-, -, -, -, hts, -, -, -, -⟩ :=
              process_rejected_threshold_spec hpr hth
            have hts2 : r.session.total_shares = w.session.total_shares := hts
            exact ⟨by simp only [SharesInv, hts2]; exact hshares, hwf⟩
          · have hr2 := process_rejected_below hpr (Nat.lt_of_not_le hth)
            subst hr2
            exact ⟨hshares, hwf⟩

theorem runOps_shares_preserved {rent sk : Nat} {w w' : World} {ops : List Op}
    (hsk : sk ≠ 0) (hshares : SharesInv w) (hwf : WfContribs sk w)
    (hrun : runOps rent sk w ops = .ok w') :
    SharesInv w' ∧ WfContribs sk w' := by
  induction ops generalizing w with
  | nil =>
      simp only [runOps, Except.ok.injEq] at hrun
      subst hrun
      exact ⟨hshares, hwf⟩
  | cons op ops ih =>
      simp only [runOps, exceptBind_ok] at hrun
      obtain ⟨w2, h2, hrun⟩ := hrun
      obtain ⟨j1, j2⟩ := applyOp_shares_preserved hsk hshares hwf h2
      exact ih j1 j2 hrun

/-! ## Concrete scenario data

Two concrete campaigns are used by the counterexamples and witnesses below:
a public (committee-certified) campaign driven through whole-world traces,
and a confidential (TEE-certified) campaign driven through single validation
calls with a fully encoded co-submitted Ed25519 instruction. -/

/-- Rent-exempt minimum for a 0-byte account (the mainnet value of
`Rent::minimum_balance(0)`). -/
def rentC : Nat := 890880

/-- Address of the session account of the concrete campaigns. -/
def skC : Nat := 1000

def pSession : Session := ⟨5, 77, 0, .Pending, false, 0, 0, 0, 0, 0, 0, [], none⟩

def pTask : Task :=
  ⟨9, some 5, .Ready, none, .HumanInLoop, List.replicate 32 7, 0, 0, 0, 0,
    none, none, none, none, none, []⟩

def pConfig : NetworkConfig := ⟨1, [], [], 1, 1, [], [], [201], 0, 1, [], 0⟩

def pNodeInfo : NodeInfo :=
  ⟨70, 100, .Compute, .Active, none, none, none, 0, [], 0, 0, 0, 0, [], []⟩

def pValidatorInfo : NodeInfo :=
  ⟨71, 201, .Public, .Active, none, none, none, 0, [], 0, 0, 0, 0, [], []⟩

/-- The public campaign right after activation with a 1000-lamport deposit:
vault `rentC + 1000`, 1000 shares held by the owner, nothing locked. -/
def pWorld : World :=
  freshWorld rentC skC 1000 pSession pTask pConfig pNodeInfo 0
    (List.replicate 32 3)

/-- Bind the task, claim it with a 100-lamport cost ceiling, submit a
result. -/
def pPrefix : List Op :=
  [.submitTask 77 [7], .claimTask 100 3 100 5, .submitResult 100 [1] [2] [3]]

def runTo (w : World) (ops : List Op) : World :=
  match runOps rentC skC w ops with
  | .ok w2 => w2
  | .error _ => w

/-- The world with the task awaiting validation under a 100-lamport lock. -/
def pMid : World := runTo pWorld pPrefix

/-- A threshold-reaching approval declaring a payment of 891880 lamports —
the vault's entire balance, far above the task's 100-lamport ceiling. -/
def pValidateOp : Op := .validate pValidatorInfo 891880 true false

def pFinal : World := runTo pMid [pValidateOp]

/-- Quorum-2 variant of the public campaign, for the payment-bounded trace:
the approved pool holds validators 201 and 202. -/
def pConfig2 : NetworkConfig := ⟨1, [], [], 1, 2, [], [], [201, 202], 0, 1, [], 0⟩

/-- The record of validator 202. -/
def pValidator202 : NodeInfo :=
  ⟨72, 202, .Public, .Active, none, none, none, 0, [], 0, 0, 0, 0, [], []⟩

def pWorld2 : World :=
  freshWorld rentC skC 1000 pSession pTask pConfig2 pNodeInfo 0
    (List.replicate 32 3)

/-- First approval: validator 201, declaring 500 lamports — above the
100-lamport ceiling, but below threshold (1 of 2), so no funds move. -/
def t2ValidateA : Op := .validate pValidatorInfo 500 true false

/-- Second approval: validator 202, declaring the 100-lamport ceiling,
reaching the quorum. -/
def t2ValidateB : Op := .validate pValidator202 100 true false

def t2W1 : World := runTo pWorld2 [.submitTask 77 [7]]

def t2W2 : World := runTo t2W1 [.claimTask 100 3 100 5]

def t2W3 : World := runTo t2W2 [.submitResult 100 [1] [2] [3]]

def t2W4 : World := runTo t2W3 [t2ValidateA]

def t2W5 : World := runTo t2W4 [t2ValidateB]

/-- The compute node's record with the claimant neither Compute-class nor
Active, for the claim_task counterexample. -/
def w6 : World :=
  { pWorld with
      task := { pTask with status := .Pending, compute_node := some 100 },
      node_info := { pNodeInfo with status := .Rejected, node_type := .Validator } }

def w6Accs : ClaimTaskAccs := ⟨100, w6.task, w6.session, w6.vault, w6.network_config⟩

def w6Final : World := runTo w6 [.claimTask 100 3 100 5]

def w6Res : ClaimTaskAccs :=
  match claim_task rentC 3 w6Accs 100 5 with
  | .ok r => r
  | .error _ => w6Accs

/-! Confidential campaign data: a task awaiting validation with pending
input/output references, certified through the attested path. -/

def cTeePk : Nat := 555

def cPendIn : List Nat := [10, 11]

def cPendOut : List Nat := [12]

/-- SHA-256(pending_input ‖ pending_output), the proof the signed message
must carry. -/
def cProof : List Nat := sha256 (cPendIn ++ cPendOut)

def cMsg (payment : Nat) (approved completed : Bool) :
    SubmitTaskValidationMessage :=
  ⟨5, 9, payment, cProof, approved, completed⟩

/-- The `Ed25519SignatureOffsets` bytes of a single-signature instruction
whose pubkey sits at offset 16 and message at offset 48. -/
def offsetsBytes (msgLen : Nat) : List Nat :=
  [0, 0, 0, 0, 16, 0, 0, 0, 48, 0, msgLen % 256, msgLen / 256, 0, 0]

/-- Instruction data of the platform Ed25519 verification instruction:
count+padding, offsets, the 32-byte signer key, the signed message. -/
def edInstrData (pk : Nat) (msg : List Nat) : List Nat :=
  [1, 0] ++ offsetsBytes msg.length ++ pubkeyBytes pk ++ msg

/-- A transaction whose current instruction (index 1) is immediately preceded
by the Ed25519 verification of `msg` under `pk`. -/
def confSysvar (pk : Nat) (msg : List Nat) : Sysvar :=
  ⟨1, [⟨ed25519ProgramId, [], edInstrData pk msg⟩]⟩

def cSession : Session := ⟨5, 77, 0, .Active, true, 0, 0, 0, 0, 1000, 100, [], none⟩

def cTask : Task :=
  ⟨9, some 5, .AwaitingValidation, some 100, .HumanInLoop, List.replicate 32 7,
    1, 100, 5, 0, none, none, some cPendIn, some cPendOut, none,
    [⟨201, .Pending⟩, ⟨202, .Pending⟩]⟩

def cNodeInfo : NodeInfo :=
  ⟨70, 100, .Compute, .Active, none, none, none, 0, [], 0, 0, 0, 0, [], []⟩

def cValidatorInfo : NodeInfo :=
  ⟨71, 201, .Confidential, .Active, none, none, some cTeePk, 0, [], 0, 0, 0, 0, [], []⟩

/-- Committee quorum of two. -/
def cConfig2 : NetworkConfig := ⟨1, [], [], 1, 2, [], [201, 202], [], 0, 1, [], 0⟩

/-- A fully valid confidential approval call against a quorum-2 config. -/
def cAccs2 : SubmitTaskValidationAccs :=
  ⟨201, cSession, 891880, cTask, cNodeInfo, 0, cValidatorInfo, cConfig2,
    confSysvar cTeePk (borshSerializeMessage (cMsg 500 true false))⟩

def cAccs2Post : SubmitTaskValidationAccs :=
  { cAccs2 with task := { cTask with validations := [⟨201, .Approved⟩, ⟨202, .Pending⟩] } }

def cTask1 : Task := { cTask with validations := [⟨201, .Pending⟩] }

/-- Committee quorum of one. -/
def cConfig1 : NetworkConfig := ⟨1, [], [], 1, 1, [], [201, 202], [], 0, 1, [], 0⟩

/-- The same confidential approval against a quorum-1 config. -/
def cAccs1 : SubmitTaskValidationAccs :=
  ⟨201, cSession, 891880, cTask1, cNodeInfo, 0, cValidatorInfo, cConfig1,
    confSysvar cTeePk (borshSerializeMessage (cMsg 500 true false))⟩

def cRes1 : SubmitTaskValidationAccs :=
  match submit_confidential_task_validation cAccs1 with
  | .ok r => r
  | .error _ => cAccs1

/-! Public committee-path data at quorum 2, for the vote-counting and
duplicate-vote scenarios. -/

def q2Session : Session := ⟨5, 77, 0, .Active, false, 0, 0, 0, 0, 1000, 100, [], none⟩

def q2Task : Task :=
  ⟨9, some 5, .AwaitingValidation, some 100, .HumanInLoop, List.replicate 32 7,
    1, 100, 5, 0, none, none, some cPendIn, some cPendOut, none,
    [⟨201, .Pending⟩, ⟨202, .Pending⟩]⟩

def q2Validator202 : NodeInfo :=
  ⟨72, 202, .Public, .Active, none, none, none, 0, [], 0, 0, 0, 0, [], []⟩

/-- First vote: validator 201 approves (brings approved count to 1 =
quorum − 1). -/
def q2AccsA : SubmitTaskValidationAccs :=
  ⟨201, q2Session, 891880, q2Task, pNodeInfo, 0, pValidatorInfo, cConfig2,
    emptySysvar⟩

def q2ResA : SubmitTaskValidationAccs :=
  match submit_public_task_validation q2AccsA 500 true false with
  | .ok r => r
  | .error _ => q2AccsA

/-- Second vote: validator 202 approves (reaches the quorum of 2). -/
def q2AccsB : SubmitTaskValidationAccs :=
  { q2ResA with node_validating := 202, validator_node_info := q2Validator202 }

def q2ResB : SubmitTaskValidationAccs :=
  match submit_public_task_validation q2AccsB 500 true false with
  | .ok r => r
  | .error _ => q2AccsB

/-! Node-promotion data at quorum 2, for the duplicate node-vote scenario. -/

def n8Candidate : NodeInfo :=
  ⟨73, 300, .Public, .AwaitingValidation, none, none, none, 0, [], 0, 0, 0, 0, [], []⟩

def n8Accs : ValidatePublicNodeAccs := ⟨201, cConfig2, pValidatorInfo, n8Candidate⟩

def n8Res : ValidatePublicNodeAccs :=
  match validate_public_node n8Accs true with
  | .ok r => r
  | .error _ => n8Accs

/-- A full approved pool of ten nodes and a full measurement list of ten
entries. -/
def c7Full : NetworkConfig :=
  ⟨1, [], [], 1, 1, [], [21, 22, 23, 24, 25, 26, 27, 28, 29, 30],
    [1, 2, 3, 4, 5, 6, 7, 8, 9, 10], 0, 1,
    (List.range 10).map (fun i => ⟨List.replicate 32 i, ⟨1, 0, i⟩⟩), 0⟩


/-! ## Properties named by the claims -/

/-- The full effects of an approval that reaches the validation threshold:
the declared amount moves from the vault to the compute node's treasury, the
task's cost ceiling is released from the lock, the campaign iteration
advances, and the task leaves `AwaitingValidation`. -/
def ApprovalEffects (a a' : SubmitTaskValidationAccs) (amt : Nat) : Prop :=
  amt ≤ a.vault ∧ a'.vault = a.vault - amt ∧
  a'.node_treasury = a.node_treasury + amt ∧
  a.task.max_task_cost ≤ a.session.locked_for_tasks ∧
  a'.session.locked_for_tasks = a.session.locked_for_tasks - a.task.max_task_cost ∧
  a'.session.current_iteration = a.session.current_iteration + 1 ∧
  a'.task.status ≠ TaskStatus.AwaitingValidation

/-- What every successful confidential certification guarantees about its
co-submitted signature-verification instruction: it is the immediately
preceding instruction, comes from the Ed25519 program, carries no accounts,
and the signer key embedded at the documented offset equals the validator's
registered TEE signing key. -/
def ConfSignerBound (a : SubmitTaskValidationAccs) : Prop :=
  ∃ teePk ix, a.validator_node_info.tee_signing_pubkey = some teePk ∧
    0 < a.instruction_sysvar.current_index ∧
    a.instruction_sysvar.instructions.get?
      (a.instruction_sysvar.current_index - 1) = some ix ∧
    ix.program_id = ed25519ProgramId ∧
    ix.accounts = [] ∧
    16 ≤ ix.data.length ∧
    (readOffsets ix.data).public_key_offset + 32 ≤ ix.data.length ∧
    (ix.data.drop (readOffsets ix.data).public_key_offset).take 32 =
      pubkeyBytes teePk

/-- The exact preconditions and effects of `claim_task`: note the absence of
any condition on the claimant's node record — the instruction takes no such
account. -/
def ClaimTaskNecessary (rent_exempt_minimum clock_slot : Nat)
    (a : ClaimTaskAccs) (max_task_cost max_call_count : Nat)
    (r : ClaimTaskAccs) : Prop :=
  a.task.status = .Pending ∧ a.session.status = .Active ∧
  a.task.compute_node = some a.compute_node ∧
  0 < a.session.total_shares ∧
  a.network_config.required_validations ≤ (claimCandidates a).length ∧
  0 < (claimCandidates a).length ∧
  a.session.locked_for_tasks + rent_exempt_minimum ≤ a.vault ∧
  max_task_cost ≤ a.vault - a.session.locked_for_tasks - rent_exempt_minimum ∧
  a.session.locked_for_tasks + max_task_cost ≤ u64Max ∧
  r.session = { a.session with locked_for_tasks := a.session.locked_for_tasks + max_task_cost } ∧
  r.task = { a.task with validations := claimSlate a clock_slot, max_task_cost := max_task_cost, max_call_count := max_call_count, status := TaskStatus.Processing, task_index := a.task.task_index + 1 } ∧
  r.vault = a.vault ∧ r.network_config = a.network_config ∧
  r.compute_node = a.compute_node

/-! ## The claims -/

/-- C1, counterexample: the claimed invariant is false as stated.  Starting
from a freshly activated campaign, binding the task, claiming it with a
100-lamport ceiling, submitting a result and certifying it with a declared
payment of 891880 lamports (the whole vault) all succeed, and the resulting
state violates `escrow_balance ≥ locked_for_tasks + reserved_minimum`:
the vault is left with 0 lamports, below the 890880-lamport reserve. -/
theorem c1_escrow_invariant_counterexample :
    runOps rentC skC pWorld (pPrefix ++ [pValidateOp]) = .ok pFinal ∧
    pFinal.vault < pFinal.session.locked_for_tasks + rentC := by
  decide

/-- C1 (amended): starting from a freshly activated campaign,
`total_shares = Σ contribution.shares` holds after every successful sequence
of operations; the inequality `escrow_balance ≥ locked_for_tasks +
reserved_minimum` also holds provided every threshold-reaching approval
declares a payment of at most the task's cost ceiling (the code does not
enforce that bound, and without it the inequality fails). -/
theorem c1_invariants_amended {rent sk d tr0 : Nat} {s0 : Session} {t0 : Task}
    {cfg : NetworkConfig} {ni : NodeInfo} {g0 : List Nat}
    {ops : List Op} {w' : World} (hsk : sk ≠ 0) :
    (runOps rent sk (freshWorld rent sk d s0 t0 cfg ni tr0 g0) ops = .ok w' →
      w'.session.total_shares = sumShares w'.contributions) ∧
    (SafeRun rent sk (freshWorld rent sk d s0 t0 cfg ni tr0 g0) ops w' →
      w'.session.total_shares = sumShares w'.contributions ∧
      w'.session.locked_for_tasks + rent ≤ w'.vault) := by
  obtain ⟨i1, i2, i3⟩ := freshWorld_inv rent sk d s0 t0 cfg ni tr0 g0
  constructor
  · intro hrun
    exact (runOps_shares_preserved hsk i1 i3 hrun).1
  · intro hrun
    obtain ⟨j1, j2, -⟩ := safeRun_inv_preserved hsk hrun i1 i2 i3
    exact ⟨j1, j2⟩

/-- C1 witness: the amended invariants evaluated on a concrete quorum-2 run
whose first approval declares 500 lamports — above the 100-lamport ceiling —
below threshold (unrestricted, since it moves no funds), and whose
quorum-reaching second approval declares the ceiling. -/
theorem c1_invariants_amended_witness :
    t2W5.session.total_shares = sumShares t2W5.contributions ∧
    t2W5.session.locked_for_tasks + rentC ≤ t2W5.vault :=
  (c1_invariants_amended (by decide)).2
    (SafeRun.cons pWorld2 (.submitTask 77 [7]) t2W1 _ t2W5 (by decide) (by decide)
      (SafeRun.cons t2W1 (.claimTask 100 3 100 5) t2W2 _ t2W5 (by decide) (by decide)
        (SafeRun.cons t2W2 (.submitResult 100 [1] [2] [3]) t2W3 _ t2W5 (by decide) (by decide)
          (SafeRun.cons t2W3 t2ValidateA t2W4 _ t2W5 (by decide) (by decide)
            (SafeRun.cons t2W4 t2ValidateB t2W5 [] t2W5 (by decide) (by decide)
              (SafeRun.nil t2W5))))))


/-- C2: on the committee path, an approve vote that brings the approved count
to quorum − 1 changes nothing but the voter's slate entry; the vote that
makes the count reach the quorum transfers exactly the declared amount to
the node treasury, releases the cost ceiling from the lock, advances the
iteration, and moves the task out of `AwaitingValidation`. -/
theorem c2_vote_quorum_boundary (a : SubmitTaskValidationAccs) (p : Nat)
    (gc : Bool) (a' : SubmitTaskValidationAccs)
    (h : submit_public_task_validation a p true gc = .ok a') :
    (approvedCount (flipFirst a.node_validating .Approved a.task.validations) + 1 =
        a.network_config.required_validations →
      a' = { a with task := { a.task with validations := flipFirst a.node_validating .Approved a.task.validations } }) ∧
    (approvedCount (flipFirst a.node_validating .Approved a.task.validations) =
        a.network_config.required_validations →
      ApprovalEffects a a' p) := by
  obtain ⟨-, -, -, -, hap, -⟩ := submit_public_ok_inversion h
  have hpa := hap rfl
  constructor
  · intro hn
    exact process_approved_below hpa (by omega)
  · intro hn
    obtain ⟨hcl, hlk, hpv, hv, htr, hit, -, hst, -, -, -, -, -⟩ :=
      process_approved_threshold_spec hpa (by omega)
    exact ⟨hpv, hv, htr, hcl, hlk, hit, by rcases hst with h2 | h2 <;> simp [h2]⟩

/-- C2 witness: at quorum 2, validator 201's approval only flips its slate
entry, and validator 202's subsequent approval releases exactly the declared
500 lamports. -/
theorem c2_vote_quorum_boundary_witness :
    q2ResA = { q2AccsA with task := { q2AccsA.task with validations := flipFirst q2AccsA.node_validating .Approved q2AccsA.task.validations } } ∧
    ApprovalEffects q2AccsB q2ResB 500 :=
  ⟨(c2_vote_quorum_boundary q2AccsA 500 false q2ResA (by decide)).1 (by decide),
   (c2_vote_quorum_boundary q2AccsB 500 false q2ResB (by decide)).2 (by decide)⟩

/-- C3, counterexample: the attested path does not certify with a single
signer.  With a committee quorum of 2, a fully valid confidential approval
(correct TEE key, ids, positive amount, matching validation proof) succeeds
but only flips the signer's slate entry: the vault, the lock, the treasury
and the task status are all unchanged. -/
theorem c3_single_signer_counterexample :
    cAccs2.network_config.required_validations = 2 ∧
    verify_confidential_validation cAccs2 = .ok (cMsg 500 true false) ∧
    (cMsg 500 true false).approved = true ∧
    submit_confidential_task_validation cAccs2 = .ok cAccs2Post ∧
    cAccs2Post.vault = cAccs2.vault ∧
    cAccs2Post.session.locked_for_tasks = cAccs2.session.locked_for_tasks ∧
    cAccs2Post.node_treasury = cAccs2.node_treasury ∧
    cAccs2Post.task.status = .AwaitingValidation := by
  decide

/-- C3 (amended): the attested path counts the signer's vote against the same
committee quorum as the public path; a single successful confidential
approval triggers the full approval effects when the configured quorum is 1. -/
theorem c3_confidential_quorum_one (a a' : SubmitTaskValidationAccs)
    (m : SubmitTaskValidationMessage)
    (hreq : a.network_config.required_validations = 1)
    (h : submit_confidential_task_validation a = .ok a')
    (hm : verify_confidential_validation a = .ok m)
    (hap : m.approved = true) :
    0 < m.payment_amount ∧ ApprovalEffects a a' m.payment_amount := by
  obtain ⟨-, -, m2, hm2, hbr⟩ := submit_confidential_ok_inversion h
  rw [hm] at hm2
  injection hm2 with hm2
  subst hm2
  obtain ⟨-, teePk, -, -, -, -, hpay, -, v, hv, -⟩ :=
    verify_confidential_ok_inversion hm
  rcases hbr with ⟨-, hpa⟩ | ⟨hfalse, -⟩
  · have hth : a.network_config.required_validations ≤
        approvedCount (flipFirst a.node_validating .Approved a.task.validations) := by
      rw [hreq]
      exact approvedCount_flip_pos hv
    obtain ⟨hcl, hlk, hpv, hvv, htr, hit, -, hst, -, -, -, -, -⟩ :=
      process_approved_threshold_spec hpa hth
    exact ⟨hpay, hpv, hvv, htr, hcl, hlk, hit,
      by rcases hst with h2 | h2 <;> simp [h2]⟩
  · rw [hap] at hfalse
    simp at hfalse

/-- C3 witness: at quorum 1, the concrete confidential approval releases its
declared 500-lamport payment. -/
theorem c3_confidential_quorum_one_witness :
    0 < (cMsg 500 true false).payment_amount ∧
    ApprovalEffects cAccs1 cRes1 (cMsg 500 true false).payment_amount :=
  c3_confidential_quorum_one cAccs1 cRes1 (cMsg 500 true false)
    (by decide) (by decide) (by decide) (by decide)

/-- C4: a successful confidential certification pins down the co-submitted
signature instruction completely — it must be the immediately preceding
instruction, come from the Ed25519 program, carry no accounts, and embed
exactly the validator's registered TEE signing key; contrapositively, if the
embedded signer key differs from the registered key (or any structural
requirement fails), the call fails for every message content. -/
theorem c4_signer_key_must_match (a a' : SubmitTaskValidationAccs)
    (h : submit_confidential_task_validation a = .ok a') :
    ConfSignerBound a := by
  obtain ⟨-, -, m, hm, -⟩ := submit_confidential_ok_inversion h
  obtain ⟨-, teePk, hteePk, hsig, -, -, -, -, -⟩ :=
    verify_confidential_ok_inversion hm
  obtain ⟨bytes, hbytes, -⟩ := verify_tee_signature_ok_inversion hsig
  obtain ⟨hidx, ix, hix, hpid, hacc, hlen, hbound, hkey, -, -⟩ :=
    verify_tee_signature_bytes_ok_inversion hbytes
  exact ⟨teePk, ix, hteePk, hidx, hix, hpid, hacc, hlen, hbound, hkey⟩

/-- C4 witness: the signer-key bound evaluated on the concrete successful
confidential call. -/
theorem c4_signer_key_must_match_witness : ConfSignerBound cAccs1 :=
  c4_signer_key_must_match cAccs1 cRes1 (by decide)

/-- C5, counterexample: a certified success (payment released, iteration
advanced) after which the campaign-level stored audit hash — the
`Goal.chain_proof` field, the only campaign-level audit hash in the data
model — is unchanged, and in particular differs from
H(prior ‖ task_hash ‖ task_slot_id ‖ iteration). -/
theorem c5_campaign_hash_counterexample :
    applyOp rentC skC pMid pValidateOp = .ok pFinal ∧
    pFinal.node_treasury = pMid.node_treasury + 891880 ∧
    pFinal.session.current_iteration = pMid.session.current_iteration + 1 ∧
    pFinal.goal_chain_proof = pMid.goal_chain_proof ∧
    pFinal.goal_chain_proof ≠ sha256 (pMid.goal_chain_proof ++
      pFinal.task.chain_proof ++ u64le pFinal.task.task_slot_id ++
      u64le pFinal.session.current_iteration) := by
  decide

/-- C5 (amended): a threshold-reaching approval recomputes only the
task-level audit hash, as H(prior_task_hash ‖ certified_input ‖
certified_output ‖ task_index); no campaign-level audit hash is recomputed —
the validation instruction's accounts include no goal record, so the
campaign's stored hash is untouched. -/
theorem c5_task_hash_only (rent sk p : Nat) (w w' : World)
    (vinfo : NodeInfo) (gc : Bool)
    (h : applyOp rent sk w (.validate vinfo p true gc) = .ok w')
    (hth : w.network_config.required_validations ≤
      approvedCount (flipFirst vinfo.node_pubkey .Approved w.task.validations)) :
    w'.goal_chain_proof = w.goal_chain_proof ∧
    w'.task.chain_proof = sha256 (w.task.chain_proof ++
      w.task.input_cid.getD [] ++ w.task.output_cid.getD [] ++
      u64le w.task.task_index) := by
  simp only [applyOp, exceptBind_ok] at h
  obtain ⟨r, hr, h⟩ := h
  simp only [Except.ok.injEq] at h
  subst h
  obtain ⟨-, -, -, -, hap, -⟩ := submit_public_ok_inversion hr
  have hpa := hap rfl
  obtain ⟨-, -, -, -, -, -, -, -, -, hcp, -, -, -⟩ :=
    process_approved_threshold_spec hpa hth
  exact ⟨rfl, hcp⟩

/-- C5 witness: the amended statement evaluated on the concrete certified
success. -/
theorem c5_task_hash_only_witness :
    pFinal.goal_chain_proof = pMid.goal_chain_proof ∧
    pFinal.task.chain_proof = sha256 (pMid.task.chain_proof ++
      pMid.task.input_cid.getD [] ++ pMid.task.output_cid.getD [] ++
      u64le pMid.task.task_index) :=
  c5_task_hash_only rentC skC 891880 pMid pFinal pValidatorInfo false
    (by decide) (by decide)


/-- C6, counterexample: `claim_task` succeeds although the claimant's node
record is `Rejected` and `Validator`-class — the claim's preconditions
"Compute-class node in Active status" and "node kind matches the campaign's
confidentiality requirement" are not checked: the instruction context holds
no node record at all. -/
theorem c6_claim_task_counterexample :
    claim_task rentC 3 w6Accs 100 5 = .ok w6Res ∧
    w6.node_info.node_pubkey = w6Accs.compute_node ∧
    w6.node_info.status = .Rejected ∧
    w6.node_info.node_type = .Validator ∧
    w6.session.is_confidential = false := by
  decide

/-- C6 (amended): `claim_task` succeeds only when the task is `Pending`, the
campaign `Active`, the caller is the task's pre-assigned compute node, the
campaign has outstanding shares, the filtered candidate pool covers the
quorum, and the available balance covers the requested ceiling; on success
the lock grows by the ceiling, the task becomes `Processing`, and the slate
is drawn from the matching approved pool minus the claimant, starting at the
clock slot modulo the candidate count.  No condition on the caller's node
record exists. -/
theorem c6_claim_task_spec {rent_exempt_minimum clock_slot : Nat}
    {a : ClaimTaskAccs} {max_task_cost max_call_count : Nat}
    {r : ClaimTaskAccs}
    (h : claim_task rent_exempt_minimum clock_slot a max_task_cost
      max_call_count = .ok r) :
    ClaimTaskNecessary rent_exempt_minimum clock_slot a max_task_cost
      max_call_count r :=
  claim_task_ok_inversion h

/-- C6 witness: the necessary conditions and effects evaluated on the
concrete successful claim. -/
theorem c6_claim_task_spec_witness :
    ClaimTaskNecessary rentC 3 w6Accs 100 5 w6Res :=
  c6_claim_task_spec (by decide)

/-- C7, counterexample: adding a node to a full approved pool does not evict
the oldest entry — it silently discards the new entry: the pool is unchanged,
the new key is absent and the oldest key is still present. -/
theorem c7_pool_eviction_counterexample :
    c7Full.approved_public_nodes.length = 10 ∧
    (c7Full.add_public_node 11).approved_public_nodes =
      c7Full.approved_public_nodes ∧
    ¬ 11 ∈ (c7Full.add_public_node 11).approved_public_nodes ∧
    1 ∈ (c7Full.add_public_node 11).approved_public_nodes := by
  decide

/-- C7 (amended): no add lets a list exceed the capacity of 10; on overflow
the code-measurement list keeps the new entry at the head and evicts the
oldest (last) entry, while the two node pools drop the newly added entry and
stay unchanged. -/
theorem c7_capacity_and_eviction (cfg : NetworkConfig) (pk pk2 : Nat)
    (m : List Nat) (v : SemanticVersion) :
    (cfg.approved_public_nodes.length ≤ 10 →
      (cfg.add_public_node pk).approved_public_nodes.length ≤ 10) ∧
    (cfg.approved_confidential_nodes.length ≤ 10 →
      (cfg.add_confidential_node pk2).approved_confidential_nodes.length ≤ 10) ∧
    (cfg.approved_code_measurements.length ≤ 10 →
      (cfg.add_code_measurement m v).approved_code_measurements.length ≤ 10) ∧
    (cfg.approved_public_nodes.length = 10 →
      (cfg.add_public_node pk).approved_public_nodes =
        cfg.approved_public_nodes) ∧
    (cfg.approved_confidential_nodes.length = 10 →
      (cfg.add_confidential_node pk2).approved_confidential_nodes =
        cfg.approved_confidential_nodes) ∧
    (cfg.approved_code_measurements.length = 10 →
      (cfg.add_code_measurement m v).approved_code_measurements =
        CodeMeasurement.mk m v :: cfg.approved_code_measurements.dropLast) := by
  refine ⟨?_, ?_, ?_, ?_, ?_, ?_⟩
  · intro hlen
    simp [NetworkConfig.add_public_node]
    split
    · exact hlen
    · simp
      omega
  · intro hlen
    simp [NetworkConfig.add_confidential_node]
    split
    · exact hlen
    · simp
      omega
  · intro hlen
    simp [NetworkConfig.add_code_measurement]
    split
    · simp
      omega
    · simp
      omega
  · intro hlen
    simp [NetworkConfig.add_public_node, hlen]
  · intro hlen
    simp [NetworkConfig.add_confidential_node, hlen]
  · intro hlen
    have hnil : cfg.approved_code_measurements ≠ [] := by
      intro hn
      rw [hn] at hlen
      simp at hlen
    simp [NetworkConfig.add_code_measurement, hlen]
    rw [List.dropLast_cons_of_ne_nil hnil]

/-- C7 witness: capacity and eviction behaviour evaluated on full lists. -/
theorem c7_capacity_and_eviction_witness :
    (c7Full.add_public_node 11).approved_public_nodes.length ≤ 10 ∧
    (c7Full.add_confidential_node 31).approved_confidential_nodes.length ≤ 10 ∧
    (c7Full.add_code_measurement (List.replicate 32 99) ⟨2, 0, 0⟩).approved_code_measurements.length ≤ 10 ∧
    (c7Full.add_code_measurement (List.replicate 32 99) ⟨2, 0, 0⟩).approved_code_measurements =
      CodeMeasurement.mk (List.replicate 32 99) ⟨2, 0, 0⟩ ::
        c7Full.approved_code_measurements.dropLast :=
  ⟨(c7_capacity_and_eviction c7Full 11 31 (List.replicate 32 99) ⟨2, 0, 0⟩).1 (by decide),
   (c7_capacity_and_eviction c7Full 11 31 (List.replicate 32 99) ⟨2, 0, 0⟩).2.1 (by decide),
   (c7_capacity_and_eviction c7Full 11 31 (List.replicate 32 99) ⟨2, 0, 0⟩).2.2.1 (by decide),
   (c7_capacity_and_eviction c7Full 11 31 (List.replicate 32 99) ⟨2, 0, 0⟩).2.2.2.2.2 (by decide)⟩


/-- C8: once a validator's vote has been recorded and as long as the vote
state is unresolved (the task still `AwaitingValidation`, the node still
`AwaitingValidation`), a second vote by the same validator — approve or
reject — fails with `DuplicateValidation`, for both task certification and
node promotion; the failed transaction leaves all state unchanged. -/
theorem c8_duplicate_vote_rejected :
    (∀ (a : SubmitTaskValidationAccs) (p1 : Nat) (ap1 gc1 : Bool)
       (a1 : SubmitTaskValidationAccs) (p2 : Nat) (ap2 gc2 : Bool),
      submit_public_task_validation a p1 ap1 gc1 = .ok a1 →
      a1.task.status = .AwaitingValidation →
      submit_public_task_validation a1 p2 ap2 gc2 =
        .error .DuplicateValidation) ∧
    (∀ (b : ValidatePublicNodeAccs) (ap1 : Bool)
       (b1 : ValidatePublicNodeAccs) (ap2 : Bool),
      validate_public_node b ap1 = .ok b1 →
      b1.node_info.status = .AwaitingValidation →
      validate_public_node b1 ap2 = .error .DuplicateValidation) := by
  constructor
  · intro a p1 ap1 gc1 a1 p2 ap2 gc2 h1 h2
    obtain ⟨hcommon, hconf, htype, ⟨v, hv, hvp⟩, hap, hrj⟩ :=
      submit_public_ok_inversion h1
    obtain ⟨hq1, hq2, hq3, hq4, hq5⟩ := validate_common_ok.mp hcommon
    have ha1 : ∃ st, st ≠ ValidationStatus.Pending ∧
        a1 = { a with task := { a.task with validations := flipFirst a.node_validating st a.task.validations } } := by
      cases ap1 with
      | true =>
          have hpa := hap rfl
          by_cases hth : a.network_config.required_validations ≤
              approvedCount (flipFirst a.node_validating .Approved a.task.validations)
          · obtain ⟨-, -, -, -, -, -, -, hst, -, -, -, -, -⟩ :=
              process_approved_threshold_spec hpa hth
            rcases hst with hst | hst <;> rw [hst] at h2 <;> simp at h2
          · exact ⟨.Approved, by simp,
              process_approved_below hpa (Nat.lt_of_not_le hth)⟩
      | false =>
          have hpr := hrj rfl
          by_cases hth : a.network_config.required_validations ≤
              rejectedCount (flipFirst a.node_validating .Rejected a.task.validations)
          · obtain ⟨-, -, -, -, -, -, hst, -, -⟩ :=
              process_rejected_threshold_spec hpr hth
            rw [hst] at h2
            simp at h2
          · exact ⟨.Rejected, by simp,
              process_rejected_below hpr (Nat.lt_of_not_le hth)⟩
    obtain ⟨st, hstne, ha1⟩ := ha1
    subst ha1
    refine submit_public_duplicate_error (v := { v with status := st })
      ?_ hconf htype ?_ (by simpa using hstne)
    · rw [validate_common_ok]
      exact ⟨hq1, hq2, hq3, hq4, hq5⟩
    · exact find_flipFirst hv
  · intro b ap1 b1 ap2 h1 h2
    obtain ⟨hb1, hb2, hb3, hb4, hb5, hb6, hbr⟩ :=
      validate_public_node_ok_inversion h1
    rcases hbr with ⟨-, hthA, hthB⟩ | ⟨-, hrej⟩
    · by_cases hth : b.network_config.required_validations ≤
          b.node_info.approved_validators.length + 1
      · have hact := hthA hth
        rw [hact] at h2
        simp at h2
      · have hb1eq := hthB (by omega)
        subst hb1eq
        refine validate_public_node_duplicate_error hb1 hb2 hb3 hb4 ?_
        left
        simp
    · rw [hrej] at h2
      simp at h2

/-- C8 witness: the concrete duplicate votes of validator 201, on a task it
already approved and on a node it already approved, both fail with
`DuplicateValidation`. -/
theorem c8_duplicate_vote_rejected_witness :
    submit_public_task_validation q2ResA 700 true true =
      .error .DuplicateValidation ∧
    validate_public_node n8Res false = .error .DuplicateValidation :=
  ⟨c8_duplicate_vote_rejected.1 q2AccsA 500 true false q2ResA 700 true true
      (by decide) (by decide),
   c8_duplicate_vote_rejected.2 n8Accs true n8Res false
      (by decide) (by decide)⟩

/-- C10: the threshold-reaching payment check compares the declared amount
only against the vault's total lamport balance.  Concretely: from a freshly
activated campaign, a task claimed under a 100-lamport ceiling is certified
with a declared payment of 891880 lamports — more than the ceiling, and more
than the vault balance minus the rent reserve minus the locked funds — and
the transfer succeeds. -/
theorem c10_payment_unbounded :
    runOps rentC skC pWorld pPrefix = .ok pMid ∧
    pMid.task.status = .AwaitingValidation ∧
    pMid.task.max_task_cost = 100 ∧
    applyOp rentC skC pMid pValidateOp = .ok pFinal ∧
    pFinal.node_treasury = pMid.node_treasury + 891880 ∧
    pFinal.vault = pMid.vault - 891880 ∧
    pMid.vault - pMid.session.locked_for_tasks - rentC < 891880 ∧
    100 < 891880 := by
  decide

end Dac
